import Mathlib

/-!
Verification development for the `einvoice-app` backend (Go).

The domain core of the repository consists of:
* the invoice data model (`backend/models/invoice.go`),
* `EInvoice.Validate` (seller-GSTIN regex check and per-item business rules),
* `EInvoice.CalculateTotals` (per-item and invoice-level monetary totals),
* the bulk-import grouping logic and the per-aggregate processing loop in
  `handleUploadExcel` (`backend/main.go`), and
* the per-invoice processing loop in `handleGenerateInvoice` (`backend/main.go`).

Modelling conventions:
* Go `float64` fields are modelled as exact rationals (`ℚ`).  Every statement
  proved below concerns either the *structure* of the computation (which field
  is computed from which, in which order) or concrete values that are exactly
  representable in binary64, so the rational model is faithful for them.
* Go methods mutating a struct through a pointer are modelled as functions
  returning the updated value.
* A Go function that can report an HTTP error is modelled as returning
  `Except String _` or an `Option String` error component; the error string is
  the message built by the handler.
* Go's `map[string]T` indexed by invoice number is modelled as an association
  list that keeps insertion order.  Go's map iteration order is unspecified;
  insertion order is one admissible iteration order, and the theorems that
  depend on iteration order say so explicitly.
-/

namespace EInvoiceApp

/-- Line item of the e-invoice schema (`models.Item` in `invoice.go`).
Numeric `float64` fields are modelled as `ℚ`. -/
structure Item where
  SlNo : String
  PrdDesc : String
  IsServc : String
  HsnCd : String
  Qty : ℚ
  Unit : String
  UnitPrice : ℚ
  TotAmt : ℚ
  AssAmt : ℚ
  GstRt : ℚ
  IgstAmt : ℚ
  TotItemVal : ℚ
deriving DecidableEq, Inhabited

/-- Transaction details (`models.TranDtls`). -/
structure TranDtls where
  TaxSch : String
  SupTyp : String
  RegRev : String
deriving DecidableEq, Inhabited

/-- Document details (`models.DocDtls`). -/
structure DocDtls where
  Typ : String
  No : String
  Dt : String
deriving DecidableEq, Inhabited

/-- Seller details (`models.SellerDtls`). -/
structure SellerDtls where
  Gstin : String
  LglNm : String
  TrdNm : String
  Addr1 : String
  Addr2 : String
  Loc : String
  Pin : Int
  Stcd : String
deriving DecidableEq, Inhabited

/-- Buyer details (`models.BuyerDtls`). -/
structure BuyerDtls where
  Gstin : String
  LglNm : String
  TrdNm : String
  Pos : String
  Addr1 : String
  Addr2 : String
  Loc : String
  Pin : Int
  Stcd : String
deriving DecidableEq, Inhabited

/-- Invoice-level value details (`models.ValDtls`). -/
structure ValDtls where
  AssVal : ℚ
  IgstVal : ℚ
  TotInvVal : ℚ
deriving DecidableEq, Inhabited

/-- Export details (`models.ExpDtls`); the Go fields have type `interface\x7b\x7d`
and only ever hold `nil` or strings in this codebase, modelled as `Option String`. -/
structure ExpDtls where
  ForCur : Option String
  CntCode : Option String
deriving DecidableEq, Inhabited

/-- The e-invoice aggregate (`models.EInvoice`). -/
structure EInvoice where
  Version : String
  TranDtls : TranDtls
  DocDtls : DocDtls
  SellerDtls : SellerDtls
  BuyerDtls : BuyerDtls
  ItemList : List Item
  ValDtls : ValDtls
  ExpDtls : ExpDtls
deriving DecidableEq, Inhabited

/-- Character class `[0-9]` of the GSTIN regex. -/
def isDigitChar (c : Char) : Bool := '0' ≤ c && c ≤ '9'

/-- Character class `[A-Z]` of the GSTIN regex. -/
def isUpperChar (c : Char) : Bool := 'A' ≤ c && c ≤ 'Z'

/-- Character class `[0-9A-Z]` of the GSTIN regex. -/
def isAlnumChar (c : Char) : Bool := isDigitChar c || isUpperChar c

/-- Transcription of the anchored regex
`^[0-9]\x7b2\x7d[A-Z]\x7b5\x7d[0-9]\x7b4\x7d[A-Z]\x7b1\x7d[0-9A-Z]\x7b1\x7dZ[0-9A-Z]\x7b1\x7d$`
from `EInvoice.Validate` in `invoice.go`: the string must consist of exactly
15 characters matching the positional character classes. -/
def gstinMatch (s : String) : Bool :=
  match s.data with
  | [d1, d2, u1, u2, u3, u4, u5, n1, n2, n3, n4, u6, a1, z, a2] =>
      isDigitChar d1 && isDigitChar d2 &&
      isUpperChar u1 && isUpperChar u2 && isUpperChar u3 && isUpperChar u4 &&
      isUpperChar u5 &&
      isDigitChar n1 && isDigitChar n2 && isDigitChar n3 && isDigitChar n4 &&
      isUpperChar u6 && isAlnumChar a1 && (z == 'Z') && isAlnumChar a2
  | _ => false

/-- The item-checking loop of `EInvoice.Validate`: the first item with a
negative quantity or non-positive unit price determines the error. -/
def validateItems : List Item → Except String Unit
  | [] => Except.ok ()
  | item :: rest =>
      if item.Qty < 0 then Except.error "quantity cannot be negative"
      else if item.UnitPrice ≤ 0 then
        Except.error "unit price must be greater than zero"
      else validateItems rest

/-- `func (i *EInvoice) Validate() error` from `invoice.go`: seller-GSTIN
format check first, then the per-item loop. -/
def EInvoice.Validate (i : EInvoice) : Except String Unit :=
  if !gstinMatch i.SellerDtls.Gstin then
    Except.error "invalid seller GSTIN format"
  else validateItems i.ItemList

/-- Body of the loop of `CalculateTotals` acting on one item: sets the four
derived fields from `Qty`, `UnitPrice` and `GstRt` exactly as the Go code. -/
def calcItem (it : Item) : Item :=
  { it with
    TotAmt := it.Qty * it.UnitPrice
    AssAmt := it.Qty * it.UnitPrice
    IgstAmt := it.Qty * it.UnitPrice * it.GstRt / 100
    TotItemVal := it.Qty * it.UnitPrice + it.Qty * it.UnitPrice * it.GstRt / 100 }

/-- `func (i *EInvoice) CalculateTotals()` from `invoice.go`: each item's
derived fields are recomputed in place in input order, and the invoice totals
accumulate the per-item assessable and IGST amounts in the same order. -/
def EInvoice.CalculateTotals (i : EInvoice) : EInvoice :=
  let items := i.ItemList.map calcItem
  let totalAssVal := items.foldl (fun acc it => acc + it.AssAmt) 0
  let totalIgstVal := items.foldl (fun acc it => acc + it.IgstAmt) 0
  { i with
    ItemList := items
    ValDtls :=
      { AssVal := totalAssVal
        IgstVal := totalIgstVal
        TotInvVal := totalAssVal + totalIgstVal } }

/-! ## Bulk-import reconciler (`handleUploadExcel`, `backend/main.go`) -/

/-- One spreadsheet row as returned by `xlsx.GetRows`: a list of cell strings. -/
abbrev Row := List String

/-- ASCII lowercasing of a single character (strconv's `lower`). -/
def lowerChar (c : Char) : Char :=
  if 'A' ≤ c && c ≤ 'Z' then Char.ofNat (c.toNat + 32) else c

/-- Hexadecimal letter class `[a-fA-F]`. -/
def isHexLetterChar (c : Char) : Bool :=
  'a' ≤ lowerChar c && lowerChar c ≤ 'f'

/-- Numeric value of a decimal or hexadecimal digit. -/
def digitVal (c : Char) : Nat :=
  if isDigitChar c then c.toNat - 48 else (lowerChar c).toNat - 87

/-- Loop of strconv's `underscoreOK`: `saw` is `0` after a digit (or the
base prefix), `_` after an underscore, `^` at the start and `!` after any
other character; an underscore is legal only between digits. -/
def underscoreOKLoop (hex : Bool) (saw : Char) : List Char → Bool
  | [] => saw != '_'
  | c :: cs =>
      if isDigitChar c || (hex && isHexLetterChar c) then
        underscoreOKLoop hex '0' cs
      else if c == '_' then
        if saw != '0' then false else underscoreOKLoop hex '_' cs
      else if saw == '_' then false
      else underscoreOKLoop hex '!' cs

/-- strconv's `underscoreOK`: after an optional sign and optional `0x`/`0X`
base prefix, underscores may appear only as separators between digits (the
base prefix counting as a digit). -/
def underscoreOK (l : List Char) : Bool :=
  let l1 := match l with
    | '+' :: rest => rest
    | '-' :: rest => rest
    | _ => l
  match l1 with
  | '0' :: x :: rest =>
      if lowerChar x == 'x' then underscoreOKLoop true '0' rest
      else underscoreOKLoop false '^' l1
  | _ => underscoreOKLoop false '^' l1

/-- Scan a run of digits in the given base, skipping underscores (their
placement is validated separately by `underscoreOK`), accumulating the exact
value and the number of digits consumed. -/
def scanDigits (hex : Bool) : List Char → Nat → Nat → Nat × Nat × List Char
  | [], v, n => (v, n, [])
  | c :: cs, v, n =>
      if c == '_' then scanDigits hex cs v n
      else if isDigitChar c then
        scanDigits hex cs (v * (if hex then 16 else 10) + digitVal c) (n + 1)
      else if hex && isHexLetterChar c then
        scanDigits hex cs (v * 16 + digitVal c) (n + 1)
      else (v, n, c :: cs)

/-- Mantissa of a numeric literal in the given base: digits with at most one
radix point; fails when no digit is present.  Returns the exact value and
the unconsumed suffix. -/
def scanMantissa (hex : Bool) (l : List Char) : Option (ℚ × List Char) :=
  let s1 := scanDigits hex l 0 0
  match s1.2.2 with
  | '.' :: rest2 =>
      let s2 := scanDigits hex rest2 0 0
      if s1.2.1 + s2.2.1 == 0 then none
      else some ((s1.1 : ℚ)
        + (s2.1 : ℚ) / ((if hex then (16 : ℚ) else 10) ^ s2.2.1), s2.2.2)
  | _ => if s1.2.1 == 0 then none else some ((s1.1 : ℚ), s1.2.2)

/-- Exponent suffix and end-of-input check: a decimal literal takes an
optional `e`/`E` decimal exponent scaling by a power of 10; a hexadecimal
literal requires a `p`/`P` decimal exponent scaling by a power of 2. -/
def applyExponent (hex : Bool) (m : ℚ) : List Char → Option ℚ
  | [] => if hex then none else some m
  | c :: cs =>
      if (!hex && (c == 'e' || c == 'E')) || (hex && (c == 'p' || c == 'P')) then
        let sd := match cs with
          | '+' :: ds => (false, ds)
          | '-' :: ds => (true, ds)
          | ds => (false, ds)
        let e := scanDigits false sd.2 0 0
        if e.2.1 == 0 then none
        else if !e.2.2.isEmpty then none
        else
          let base : ℚ := if hex then 2 else 10
          if sd.1 then some (m / base ^ e.1) else some (m * base ^ e.1)
      else none

/-- Model of the library function `strconv.ParseFloat` restricted to finite
values: an optional sign, then either decimal digits with an optional
fraction and optional `e`/`E` exponent, or a `0x`/`0X` hexadecimal mantissa
with its mandatory `p`/`P` exponent; underscores as digit separators per
Go's literal syntax (`underscoreOK`); the whole string must be consumed.
Strings parsing to the IEEE specials — `Inf`/`Infinity`/`NaN`, recognised by
`parseFloatSpecial` — are outside this model's rational value domain, as are
exponents that overflow binary64 (Go returns ±Inf with a range error there);
no theorem below evaluates an item built from such a cell.  On every other
string Go reports a syntax error and returns 0; the callers in
`handleUploadExcel` discard the error, see `parseFloatOr0` and
`parseFloatFails`. -/
def parseFloat? (s : String) : Option ℚ :=
  if !underscoreOK s.data then none
  else
    let sl := match s.data with
      | '+' :: rest => (false, rest)
      | '-' :: rest => (true, rest)
      | l => (false, l)
    let hl := match sl.2 with
      | '0' :: x :: rest =>
          if lowerChar x == 'x' then (true, rest) else (false, sl.2)
      | _ => (false, sl.2)
    match scanMantissa hl.1 hl.2 with
    | none => none
    | some mr =>
        match applyExponent hl.1 mr.1 mr.2 with
        | none => none
        | some v => some (if sl.1 then -v else v)

/-- Recognizer for strconv's `special`: `inf` and `infinity` with an
optional sign, and unsigned `nan`, all case-insensitive, consuming the whole
string.  ParseFloat accepts these with a non-finite value. -/
def parseFloatSpecial (s : String) : Bool :=
  let l := s.data.map lowerChar
  l == "inf".data || l == "+inf".data || l == "-inf".data
    || l == "infinity".data || l == "+infinity".data || l == "-infinity".data
    || l == "nan".data

/-- Model of `strconv.ParseFloat` reporting a syntax error: the string is
neither an accepted finite numeric literal nor one of the special values.
On exactly these strings ParseFloat returns 0, and the callers in
`handleUploadExcel` discard the error, so the cell's value silently
becomes 0. -/
def parseFloatFails (s : String) : Bool :=
  (parseFloat? s).isNone && !parseFloatSpecial s

/-- `qty, _ := strconv.ParseFloat(row[7], 64)` with the error ignored:
a cell ParseFloat rejects silently yields `0`. -/
def parseFloatOr0 (s : String) : ℚ := (parseFloat? s).getD 0

/-- Header construction on first sight of an invoice number in
`handleUploadExcel` (the `!exists` branch): hard-coded seller/transaction
constants, row-derived document, seller-GSTIN, and buyer fields. -/
def mkInvoice (row : Row) : EInvoice :=
  { Version := "1.1"
    TranDtls := { TaxSch := "GST", SupTyp := "EXPWP", RegRev := "N" }
    DocDtls := { Typ := "INV", No := row.getD 1 "", Dt := row.getD 2 "" }
    SellerDtls :=
      { Gstin := row.getD 0 ""
        LglNm := "SELLER COMPANY NAME"
        TrdNm := "SELLER TRADE NAME"
        Addr1 := "SELLER ADDRESS LINE 1"
        Addr2 := "SELLER ADDRESS LINE 2"
        Loc := "SELLER CITY"
        Pin := 110001
        Stcd := "07" }
    BuyerDtls :=
      { Gstin := row.getD 3 ""
        LglNm := row.getD 4 ""
        TrdNm := row.getD 4 ""
        Pos := "96"
        Addr1 := row.getD 5 ""
        Addr2 := ""
        Loc := row.getD 6 ""
        Pin := 999999
        Stcd := "96" }
    ItemList := []
    ValDtls := { AssVal := 0, IgstVal := 0, TotInvVal := 0 }
    ExpDtls := { ForCur := none, CntCode := none } }

/-- Item construction for one data row in `handleUploadExcel`, with serial
number `sl` (the Go code passes `len(itemMap[invoiceNo]) + 1`). -/
def mkItem (sl : Nat) (row : Row) : Item :=
  let qty := parseFloatOr0 (row.getD 7 "")
  let unitPrice := parseFloatOr0 (row.getD 9 "")
  let gstRate := parseFloatOr0 (row.getD 10 "")
  { SlNo := toString sl
    PrdDesc := row.getD 5 ""
    IsServc := "N"
    HsnCd := row.getD 6 ""
    Qty := qty
    Unit := row.getD 8 ""
    UnitPrice := unitPrice
    TotAmt := qty * unitPrice
    AssAmt := qty * unitPrice
    GstRt := gstRate
    IgstAmt := qty * unitPrice * gstRate / 100
    TotItemVal := qty * unitPrice + qty * unitPrice * gstRate / 100 }

/-- Lookup in an association list (model of Go map indexing). -/
def lookupA {α : Type} (k : String) : List (String × α) → Option α
  | [] => none
  | (k', v) :: rest => if k' = k then some v else lookupA k rest

/-- Assignment in an association list (model of Go map assignment): replaces
the value of an existing key, appends a new binding otherwise. -/
def setA {α : Type} (k : String) (v : α) : List (String × α) → List (String × α)
  | [] => [(k, v)]
  | (k', v') :: rest => if k' = k then (k, v) :: rest else (k', v') :: setA k v rest

/-- The two grouping maps of `handleUploadExcel`:
`invoiceMap := make(map[string]*models.EInvoice)` and
`itemMap := make(map[string][]models.Item)`, modelled as insertion-ordered
association lists. -/
structure GroupState where
  invoiceMap : List (String × EInvoice)
  itemMap : List (String × List Item)
deriving DecidableEq

/-- Empty maps at the start of the row loop. -/
def initGroupState : GroupState := { invoiceMap := [], itemMap := [] }

/-- Body of the data-row loop of `handleUploadExcel` for one row that has
already passed the column-count check: create the aggregate on first sight of
the invoice number, then append the row's item with serial
`len(itemMap[invoiceNo]) + 1`. -/
def processRow (st : GroupState) (row : Row) : GroupState :=
  let invoiceNo := row.getD 1 ""
  let st1 :=
    match lookupA invoiceNo st.invoiceMap with
    | some _ => st
    | none =>
        { invoiceMap := st.invoiceMap ++ [(invoiceNo, mkInvoice row)]
          itemMap := st.itemMap ++ [(invoiceNo, [])] }
  let items := (lookupA invoiceNo st1.itemMap).getD []
  { st1 with itemMap := setA invoiceNo (items ++ [mkItem (items.length + 1) row]) st1.itemMap }

/-- The row loop of `handleUploadExcel` from index `i` on: a row with fewer
than 12 columns aborts the whole batch with the 1-based row index. -/
def groupRowsAux (i : Nat) (st : GroupState) : List Row → Except String GroupState
  | [] => Except.ok st
  | row :: rest =>
      if row.length < 12 then
        Except.error ("Row " ++ toString (i + 1) ++ " does not have enough columns")
      else groupRowsAux (i + 1) (processRow st row) rest

/-- Grouping phase of `handleUploadExcel`: the `len(rows) < 2` guard, the
unconditional skip of row 0 (the header row), then the data-row loop. -/
def groupRows (rows : List Row) : Except String GroupState :=
  if rows.length < 2 then Except.error "Excel file does not contain enough data"
  else
    match rows with
    | [] => Except.error "Excel file does not contain enough data"
    | _ :: dataRows => groupRowsAux 1 initGroupState dataRows

/-! ## Persistence phase shared by both handlers -/

/-- Rounding of `q` to the nearest integer with ties to even, as binary64
formatting does. -/
def roundHalfEven (q : ℚ) : Int :=
  let f := ⌊q⌋
  let frac := q - f
  if frac < 1 / 2 then f
  else if 1 / 2 < frac then f + 1
  else if f % 2 = 0 then f else f + 1

/-- Two-digit zero-padded decimal string. -/
def pad2 (n : Nat) : String :=
  if n < 10 then "0" ++ toString n else toString n

/-- Model of the library formatting `fmt.Sprintf("%.2f", v)` for finite `v`:
the exact value, correctly rounded to two decimals with ties to even.  (A
negative value rounding to zero renders without the sign here, a corner case
no claim depends on.) -/
def format2f (q : ℚ) : String :=
  let n := roundHalfEven (q * 100)
  let a := n.natAbs
  let s := toString (a / 100) ++ "." ++ pad2 (a % 100)
  if n < 0 then "-" ++ s else s

/-- The QR payload `fmt.Sprintf("%s:%.2f", invoice.DocDtls.No,
invoice.ValDtls.TotInvVal)`, built verbatim at both call sites
(`handleGenerateInvoice` and `handleUploadExcel`). -/
def qrContentOf (no : String) (tot : ℚ) : String :=
  no ++ ":" ++ format2f tot

/-- One row of the `invoices` table as written by either handler: the values
of the `INSERT` besides `user_id`/`created_at` (the serialized aggregate
stands in for its JSON, the QR payload string for the PNG that encodes it). -/
structure PersistRecord where
  seller_gstin : String
  invoice_no : String
  invoice : EInvoice
  qrContent : String
deriving DecidableEq

/-- The per-invoice tail of both handler loops once validation has passed:
QR-payload construction, serialization and the database insert. -/
def persistOf (inv : EInvoice) : PersistRecord :=
  { seller_gstin := inv.SellerDtls.Gstin
    invoice_no := inv.DocDtls.No
    invoice := inv
    qrContent := qrContentOf inv.DocDtls.No inv.ValDtls.TotInvVal }

/-- The `for invoiceNo, invoice := range invoiceMap` loop of
`handleUploadExcel`: per aggregate, attach its items, `CalculateTotals`,
`Validate` — a validation failure returns at once with the document number in
the message, leaving earlier iterations' inserts in place — then persist.
The first component collects the inserts performed, the second the error. -/
def processEntries : List (String × EInvoice × List Item) → List PersistRecord × Option String
  | [] => ([], none)
  | (no, inv, items) :: rest =>
      let inv' := EInvoice.CalculateTotals { inv with ItemList := items }
      match inv'.Validate with
      | Except.error e => ([], some ("Invoice " ++ no ++ ": " ++ e))
      | Except.ok _ =>
          let r := processEntries rest
          (persistOf inv' :: r.1, r.2)

/-- The grouped aggregates of a state, in insertion order: each key of
`invoiceMap` paired with its header and its item list. -/
def GroupState.entries (st : GroupState) : List (String × EInvoice × List Item) :=
  st.invoiceMap.map fun p => (p.1, p.2, (lookupA p.1 st.itemMap).getD [])

/-- End-to-end model of `handleUploadExcel` after spreadsheet decoding:
grouping, then the per-aggregate loop.  The Go `range` over the map has
unspecified order; this model iterates in insertion order, one admissible
order, and theorems depending on the order say so. -/
def uploadCore (rows : List Row) : List PersistRecord × Option String :=
  match groupRows rows with
  | Except.error e => ([], some e)
  | Except.ok st => processEntries st.entries

/-- The per-invoice loop of `handleGenerateInvoice`: `Validate` first (on the
invoice as submitted), then `CalculateTotals`, then QR/serialize/insert. -/
def generateList : List EInvoice → List PersistRecord × Option String
  | [] => ([], none)
  | inv :: rest =>
      match inv.Validate with
      | Except.error e => ([], some e)
      | Except.ok _ =>
          let inv' := inv.CalculateTotals
          let r := generateList rest
          (persistOf inv' :: r.1, r.2)

/-- Model of `handleGenerateInvoice` after JSON binding: the empty-list guard
and the per-invoice loop. -/
def generateCore (invoices : List EInvoice) : List PersistRecord × Option String :=
  if invoices.length = 0 then ([], some "No invoice data provided")
  else generateList invoices

/-! ## JSON codec model

Modelled from the spec: the JSON codec collaborator (§6) that
serializes/deserializes an InvoiceAggregate for storage and the JSON
endpoints.  The Go side is the standard library `encoding/json`, which is not
part of this repository; field names follow the struct tags in `invoice.go`,
and `float64` values round-trip exactly through their JSON representation. -/

/-- JSON value tree. -/
inductive Js where
  | null : Js
  | str : String → Js
  | num : ℚ → Js
  | arr : List Js → Js
  | obj : List (String × Js) → Js

/-- Object field lookup by name. -/
def getField (k : String) : List (String × Js) → Option Js
  | [] => none
  | (k', v) :: rest => if k' = k then some v else getField k rest

/-- Expect a JSON string. -/
def asStr : Js → Option String
  | Js.str s => some s
  | _ => none

/-- Expect a JSON number. -/
def asNum : Js → Option ℚ
  | Js.num q => some q
  | _ => none

/-- Expect a JSON integer (a number with denominator 1). -/
def asInt (j : Js) : Option Int :=
  match j with
  | Js.num q => if q.den = 1 then some q.num else none
  | _ => none

/-- Expect a JSON string or null (the `interface\x7b\x7d` fields). -/
def asOptStr : Js → Option (Option String)
  | Js.null => some none
  | Js.str s => some (some s)
  | _ => none

/-- Encode an `Item` with its struct-tag field names. -/
def encodeItem (it : Item) : Js :=
  Js.obj
    [("SlNo", Js.str it.SlNo), ("PrdDesc", Js.str it.PrdDesc),
     ("IsServc", Js.str it.IsServc), ("HsnCd", Js.str it.HsnCd),
     ("Qty", Js.num it.Qty), ("Unit", Js.str it.Unit),
     ("UnitPrice", Js.num it.UnitPrice), ("TotAmt", Js.num it.TotAmt),
     ("AssAmt", Js.num it.AssAmt), ("GstRt", Js.num it.GstRt),
     ("IgstAmt", Js.num it.IgstAmt), ("TotItemVal", Js.num it.TotItemVal)]

/-- Decode an `Item`. -/
def decodeItem (j : Js) : Option Item :=
  match j with
  | Js.obj f => do
      let slNo ← (getField "SlNo" f).bind asStr
      let prdDesc ← (getField "PrdDesc" f).bind asStr
      let isServc ← (getField "IsServc" f).bind asStr
      let hsnCd ← (getField "HsnCd" f).bind asStr
      let qty ← (getField "Qty" f).bind asNum
      let unit ← (getField "Unit" f).bind asStr
      let unitPrice ← (getField "UnitPrice" f).bind asNum
      let totAmt ← (getField "TotAmt" f).bind asNum
      let assAmt ← (getField "AssAmt" f).bind asNum
      let gstRt ← (getField "GstRt" f).bind asNum
      let igstAmt ← (getField "IgstAmt" f).bind asNum
      let totItemVal ← (getField "TotItemVal" f).bind asNum
      pure
        { SlNo := slNo, PrdDesc := prdDesc, IsServc := isServc, HsnCd := hsnCd
          Qty := qty, Unit := unit, UnitPrice := unitPrice, TotAmt := totAmt
          AssAmt := assAmt, GstRt := gstRt, IgstAmt := igstAmt
          TotItemVal := totItemVal }
  | _ => none

/-- Decode a list of items. -/
def decodeItems : List Js → Option (List Item)
  | [] => some []
  | j :: rest => do
      let it ← decodeItem j
      let tail ← decodeItems rest
      pure (it :: tail)

/-- Encode an `EInvoice` with its struct-tag field names. -/
def encodeInvoice (inv : EInvoice) : Js :=
  Js.obj
    [("Version", Js.str inv.Version),
     ("TranDtls", Js.obj
        [("TaxSch", Js.str inv.TranDtls.TaxSch),
         ("SupTyp", Js.str inv.TranDtls.SupTyp),
         ("RegRev", Js.str inv.TranDtls.RegRev)]),
     ("DocDtls", Js.obj
        [("Typ", Js.str inv.DocDtls.Typ), ("No", Js.str inv.DocDtls.No),
         ("Dt", Js.str inv.DocDtls.Dt)]),
     ("SellerDtls", Js.obj
        [("Gstin", Js.str inv.SellerDtls.Gstin),
         ("LglNm", Js.str inv.SellerDtls.LglNm),
         ("TrdNm", Js.str inv.SellerDtls.TrdNm),
         ("Addr1", Js.str inv.SellerDtls.Addr1),
         ("Addr2", Js.str inv.SellerDtls.Addr2),
         ("Loc", Js.str inv.SellerDtls.Loc),
         ("Pin", Js.num (inv.SellerDtls.Pin : ℚ)),
         ("Stcd", Js.str inv.SellerDtls.Stcd)]),
     ("BuyerDtls", Js.obj
        [("Gstin", Js.str inv.BuyerDtls.Gstin),
         ("LglNm", Js.str inv.BuyerDtls.LglNm),
         ("TrdNm", Js.str inv.BuyerDtls.TrdNm),
         ("Pos", Js.str inv.BuyerDtls.Pos),
         ("Addr1", Js.str inv.BuyerDtls.Addr1),
         ("Addr2", Js.str inv.BuyerDtls.Addr2),
         ("Loc", Js.str inv.BuyerDtls.Loc),
         ("Pin", Js.num (inv.BuyerDtls.Pin : ℚ)),
         ("Stcd", Js.str inv.BuyerDtls.Stcd)]),
     ("ItemList", Js.arr (inv.ItemList.map encodeItem)),
     ("ValDtls", Js.obj
        [("AssVal", Js.num inv.ValDtls.AssVal),
         ("IgstVal", Js.num inv.ValDtls.IgstVal),
         ("TotInvVal", Js.num inv.ValDtls.TotInvVal)]),
     ("ExpDtls", Js.obj
        [("ForCur", match inv.ExpDtls.ForCur with
                    | none => Js.null
                    | some s => Js.str s),
         ("CntCode", match inv.ExpDtls.CntCode with
                     | none => Js.null
                     | some s => Js.str s)])]

/-- Decode an `EInvoice`. -/
def decodeInvoice (j : Js) : Option EInvoice :=
  match j with
  | Js.obj f => do
      let version ← (getField "Version" f).bind asStr
      let tran ←
        match getField "TranDtls" f with
        | some (Js.obj g) => do
            let taxSch ← (getField "TaxSch" g).bind asStr
            let supTyp ← (getField "SupTyp" g).bind asStr
            let regRev ← (getField "RegRev" g).bind asStr
            pure ({ TaxSch := taxSch, SupTyp := supTyp, RegRev := regRev } : TranDtls)
        | _ => none
      let doc ←
        match getField "DocDtls" f with
        | some (Js.obj g) => do
            let typ ← (getField "Typ" g).bind asStr
            let no ← (getField "No" g).bind asStr
            let dt ← (getField "Dt" g).bind asStr
            pure ({ Typ := typ, No := no, Dt := dt } : DocDtls)
        | _ => none
      let seller ←
        match getField "SellerDtls" f with
        | some (Js.obj g) => do
            let gstin ← (getField "Gstin" g).bind asStr
            let lglNm ← (getField "LglNm" g).bind asStr
            let trdNm ← (getField "TrdNm" g).bind asStr
            let addr1 ← (getField "Addr1" g).bind asStr
            let addr2 ← (getField "Addr2" g).bind asStr
            let loc ← (getField "Loc" g).bind asStr
            let pin ← (getField "Pin" g).bind asInt
            let stcd ← (getField "Stcd" g).bind asStr
            pure ({ Gstin := gstin, LglNm := lglNm, TrdNm := trdNm
                    Addr1 := addr1, Addr2 := addr2, Loc := loc
                    Pin := pin, Stcd := stcd } : SellerDtls)
        | _ => none
      let buyer ←
        match getField "BuyerDtls" f with
        | some (Js.obj g) => do
            let gstin ← (getField "Gstin" g).bind asStr
            let lglNm ← (getField "LglNm" g).bind asStr
            let trdNm ← (getField "TrdNm" g).bind asStr
            let pos ← (getField "Pos" g).bind asStr
            let addr1 ← (getField "Addr1" g).bind asStr
            let addr2 ← (getField "Addr2" g).bind asStr
            let loc ← (getField "Loc" g).bind asStr
            let pin ← (getField "Pin" g).bind asInt
            let stcd ← (getField "Stcd" g).bind asStr
            pure ({ Gstin := gstin, LglNm := lglNm, TrdNm := trdNm, Pos := pos
                    Addr1 := addr1, Addr2 := addr2, Loc := loc
                    Pin := pin, Stcd := stcd } : BuyerDtls)
        | _ => none
      let items ←
        match getField "ItemList" f with
        | some (Js.arr l) => decodeItems l
        | _ => none
      let val ←
        match getField "ValDtls" f with
        | some (Js.obj g) => do
            let assVal ← (getField "AssVal" g).bind asNum
            let igstVal ← (getField "IgstVal" g).bind asNum
            let totInvVal ← (getField "TotInvVal" g).bind asNum
            pure ({ AssVal := assVal, IgstVal := igstVal
                    TotInvVal := totInvVal } : ValDtls)
        | _ => none
      let exp ←
        match getField "ExpDtls" f with
        | some (Js.obj g) => do
            let forCur ← (getField "ForCur" g).bind asOptStr
            let cntCode ← (getField "CntCode" g).bind asOptStr
            pure ({ ForCur := forCur, CntCode := cntCode } : ExpDtls)
        | _ => none
      pure
        { Version := version, TranDtls := tran, DocDtls := doc
          SellerDtls := seller, BuyerDtls := buyer, ItemList := items
          ValDtls := val, ExpDtls := exp }
  | _ => none

/-! ## Specification-side definitions

These follow the spec's words ("2 digits, 5 uppercase letters, ...";
"grouped by the document-number column", "first-seen-wins", "serials by
append order") and are compared with the source-derived definitions above. -/

/-- Spec-side GSTIN format: exactly 15 characters, positionally 2 digits,
5 uppercase letters, 4 digits, 1 uppercase letter, 1 alphanumeric, the
literal character `Z`, 1 alphanumeric. -/
def gstinSpecFormat (s : String) : Prop :=
  s.data.length = 15 ∧
  (∀ k, k < 2 → isDigitChar (s.data.getD k ' ') = true) ∧
  (∀ k, 2 ≤ k → k < 7 → isUpperChar (s.data.getD k ' ') = true) ∧
  (∀ k, 7 ≤ k → k < 11 → isDigitChar (s.data.getD k ' ') = true) ∧
  isUpperChar (s.data.getD 11 ' ') = true ∧
  isAlnumChar (s.data.getD 12 ' ') = true ∧
  s.data.getD 13 ' ' = 'Z' ∧
  isAlnumChar (s.data.getD 14 ' ') = true

/-- The grouping key of a data row: the document-number column (index 1). -/
def rowKey (row : Row) : String := row.getD 1 ""

/-- Spec-side list of distinct keys in order of first occurrence. -/
def firstKeysAux (seen : List String) : List String → List String
  | [] => []
  | k :: ks =>
      if k ∈ seen then firstKeysAux seen ks
      else k :: firstKeysAux (k :: seen) ks

/-- Distinct keys of a key sequence, first occurrences in input order. -/
def firstKeys (ks : List String) : List String := firstKeysAux [] ks

/-- Data rows carrying a given document number, in input order. -/
def rowsWithKey (k : String) (rs : List Row) : List Row :=
  rs.filter fun r => rowKey r = k

/-- Spec-side items of a group: one item per row in input order, serial
numbers `n, n+1, ...` by position. -/
def itemsFromAux (n : Nat) : List Row → List Item
  | [] => []
  | r :: rs => mkItem n r :: itemsFromAux (n + 1) rs

/-- Items of a group with serials starting at 1. -/
def itemsFrom (rs : List Row) : List Item := itemsFromAux 1 rs

/-- The calculation inputs of an item: quantity, unit price, tax rate. -/
def itemInputs (it : Item) : ℚ × ℚ × ℚ := (it.Qty, it.UnitPrice, it.GstRt)

/-- The non-derived fields of an item: everything except `TotAmt`, `AssAmt`,
`IgstAmt`, `TotItemVal`. -/
def itemFrame (it : Item) : String × String × String × String × ℚ × String × ℚ × ℚ :=
  (it.SlNo, it.PrdDesc, it.IsServc, it.HsnCd, it.Qty, it.Unit, it.UnitPrice, it.GstRt)

/-- The derived fields of an item. -/
def itemDerived (it : Item) : ℚ × ℚ × ℚ × ℚ :=
  (it.TotAmt, it.AssAmt, it.IgstAmt, it.TotItemVal)

/-- Single line item of the spec's end-to-end example:
quantity 2, unit price 15000, tax rate 18. -/
def exampleItem : Item :=
  { SlNo := "1", PrdDesc := "Laptop", IsServc := "N", HsnCd := "8471"
    Qty := 2, Unit := "NOS", UnitPrice := 15000, TotAmt := 0, AssAmt := 0
    GstRt := 18, IgstAmt := 0, TotItemVal := 0 }

/-- Invoice of the spec's end-to-end example: a valid seller GSTIN and the
single example item. -/
def exampleInvoice : EInvoice :=
  { Version := "1.1"
    TranDtls := { TaxSch := "GST", SupTyp := "EXPWP", RegRev := "N" }
    DocDtls := { Typ := "INV", No := "DOC1", Dt := "01/01/2024" }
    SellerDtls :=
      { Gstin := "07AADCS0472N1Z1", LglNm := "SELLER", TrdNm := "SELLER"
        Addr1 := "A1", Addr2 := "A2", Loc := "DELHI", Pin := 110001, Stcd := "07" }
    BuyerDtls :=
      { Gstin := "URP", LglNm := "BUYER", TrdNm := "BUYER", Pos := "96"
        Addr1 := "B1", Addr2 := "", Loc := "ABROAD", Pin := 999999, Stcd := "96" }
    ItemList := [exampleItem]
    ValDtls := { AssVal := 0, IgstVal := 0, TotInvVal := 0 }
    ExpDtls := { ForCur := none, CntCode := none } }

/-- An invoice with a valid seller GSTIN but a zero unit price on its single
item, used to exercise the price rule. -/
def badPriceInvoice : EInvoice :=
  { exampleInvoice with
    ItemList := [{ exampleItem with UnitPrice := 0 }] }

/-- Spreadsheet columns in import order: seller GSTIN, document number,
document date, buyer GSTIN, buyer name, address/description, location/HSN,
quantity, unit, unit price, tax rate, service flag. -/
def headerRow : Row :=
  ["Seller GSTIN", "Invoice No", "Date", "Buyer GSTIN", "Buyer Name",
   "Address", "HSN", "Qty", "Unit", "Unit Price", "Tax Rate", "Service"]

/-- First data row of the two-row grouping example (document `DOC1`). -/
def exampleRow1 : Row :=
  ["07AADCS0472N1Z1", "DOC1", "01/01/2024", "URP", "BUYER", "B ADDR",
   "8471", "2", "NOS", "15000", "18", "N"]

/-- Second data row of the grouping example, same document `DOC1`. -/
def exampleRow2 : Row :=
  ["07AADCS0472N1Z1", "DOC1", "01/01/2024", "URP", "BUYER", "B ADDR",
   "8471", "1", "NOS", "500", "18", "N"]

/-- Header row plus two data rows sharing document number `DOC1`. -/
def exampleRows : List Row := [headerRow, exampleRow1, exampleRow2]

/-- The grouping result of `exampleRows` (the error branch is unreachable). -/
def exampleGrouped : GroupState :=
  match groupRows exampleRows with
  | Except.ok st => st
  | Except.error _ => initGroupState

/-- A data row for a second document `DOC2` whose unit-price cell is `"0"`,
so its aggregate fails validation. -/
def badPriceRow : Row :=
  ["07AADCS0472N1Z1", "DOC2", "02/01/2024", "URP", "BUYER2", "B2 ADDR",
   "8471", "1", "NOS", "0", "18", "N"]

/-- A batch whose first aggregate (`DOC1`) is valid and whose second
(`DOC2`) fails validation. -/
def mixedRows : List Row := [headerRow, exampleRow1, badPriceRow]

/-- A data row with only 5 of the required 12 columns. -/
def shortRow : Row := ["07AADCS0472N1Z1", "DOC3", "03/01/2024", "URP", "BUYER"]

/-- The spec's fail-fast example: three valid data rows and one short row. -/
def shortRows : List Row :=
  [headerRow, exampleRow1, exampleRow2, badPriceRow, shortRow]

/-- A data row whose quantity, unit-price and tax-rate cells are all
non-numeric. -/
def garbageRow : Row :=
  ["07AADCS0472N1Z1", "DOC4", "04/01/2024", "URP", "BUYER", "B ADDR",
   "8471", "xyz", "NOS", "abc", "n/a", "N"]

/-- The grouped entries of `mixedRows` (the error branch is unreachable). -/
def mixedEntries : List (String × EInvoice × List Item) :=
  match groupRows mixedRows with
  | Except.ok st => st.entries
  | Except.error _ => []

/-- First grouped entry of `mixedRows` (document `DOC1`). -/
def mixedHead : String × EInvoice × List Item :=
  mixedEntries.getD 0 ("", default, [])

/-- Second grouped entry of `mixedRows` (document `DOC2`, invalid price). -/
def mixedSnd : String × EInvoice × List Item :=
  mixedEntries.getD 1 ("", default, [])

end EInvoiceApp

namespace EInvoiceApp

/-! ## Lemmas about the JSON codec model -/

/-- Item encode/decode inverse. -/
theorem decodeItem_encodeItem (it : Item) : decodeItem (encodeItem it) = some it := rfl

/-- Item-list encode/decode inverse. -/
theorem decodeItems_map_encodeItem (items : List Item) :
    decodeItems (items.map encodeItem) = some items := by
  induction items with
  | nil => rfl
  | cons it rest ih =>
      simp [decodeItems, decodeItem_encodeItem, ih]

/-- Invoice encode/decode inverse: serializing to the JSON model and back is
the identity. -/
theorem decodeInvoice_encodeInvoice (inv : EInvoice) :
    decodeInvoice (encodeInvoice inv) = some inv := by
  cases inv with
  | mk v t d s b il vd e =>
    cases e with
    | mk fc cc =>
      cases fc <;> cases cc <;>
        simp [decodeInvoice, encodeInvoice, getField, asStr, asNum, asInt,
              asOptStr, decodeItems_map_encodeItem, Rat.den_intCast]

/-! ## Lemmas about the calculator -/

/-- The assessable-value accumulation of the loop, in terms of the inputs. -/
theorem foldl_assAmt_map_calcItem (l : List Item) (a : ℚ) :
    ((l.map calcItem).foldl (fun acc it => acc + it.AssAmt) a)
      = (l.map fun it => it.Qty * it.UnitPrice).foldl (· + ·) a := by
  induction l generalizing a with
  | nil => rfl
  | cons x xs ih => simp [calcItem, ih]

/-- The IGST accumulation of the loop, in terms of the inputs. -/
theorem foldl_igstAmt_map_calcItem (l : List Item) (a : ℚ) :
    ((l.map calcItem).foldl (fun acc it => acc + it.IgstAmt) a)
      = (l.map fun it => it.Qty * it.UnitPrice * it.GstRt / 100).foldl (· + ·) a := by
  induction l generalizing a with
  | nil => rfl
  | cons x xs ih => simp [calcItem, ih]

/-- Recomputing an already-recomputed item changes nothing. -/
theorem calcItem_calcItem (it : Item) : calcItem (calcItem it) = calcItem it := rfl

/-- An item's non-derived fields survive the recomputation. -/
theorem itemFrame_calcItem (it : Item) : itemFrame (calcItem it) = itemFrame it := rfl

/-- C1: `CalculateTotals` sets, for each line item in input order, the
assessable amount (`AssAmt`, and the equal `TotAmt`) to quantity times unit
price, the tax amount (`IgstAmt`) to assessable amount times tax rate divided
by 100, and the line total (`TotItemVal`) to assessable amount plus tax
amount; the invoice totals `AssVal` and `IgstVal` are the insertion-order
sums of the item assessable and tax amounts, and `TotInvVal` their sum.  For
the single item with quantity 2, unit price 15000, tax rate 18 this gives
`AssAmt = 30000`, `IgstAmt = 5400`, `TotItemVal = 35400`, `AssVal = 30000`,
`IgstVal = 5400`, `TotInvVal = 35400`. -/
theorem claim_C1 (inv : EInvoice) :
    ((inv.CalculateTotals).ItemList.length = inv.ItemList.length
    ∧ (∀ j : Nat,
        ((inv.CalculateTotals).ItemList.getD j default).AssAmt
          = (inv.ItemList.getD j default).Qty * (inv.ItemList.getD j default).UnitPrice
        ∧ ((inv.CalculateTotals).ItemList.getD j default).TotAmt
          = ((inv.CalculateTotals).ItemList.getD j default).AssAmt
        ∧ ((inv.CalculateTotals).ItemList.getD j default).IgstAmt
          = ((inv.CalculateTotals).ItemList.getD j default).AssAmt
              * (inv.ItemList.getD j default).GstRt / 100
        ∧ ((inv.CalculateTotals).ItemList.getD j default).TotItemVal
          = ((inv.CalculateTotals).ItemList.getD j default).AssAmt
              + ((inv.CalculateTotals).ItemList.getD j default).IgstAmt)
    ∧ (inv.CalculateTotals).ValDtls.AssVal
        = (inv.ItemList.map fun it => it.Qty * it.UnitPrice).foldl (· + ·) 0
    ∧ (inv.CalculateTotals).ValDtls.IgstVal
        = (inv.ItemList.map fun it => it.Qty * it.UnitPrice * it.GstRt / 100).foldl (· + ·) 0
    ∧ (inv.CalculateTotals).ValDtls.TotInvVal
        = (inv.CalculateTotals).ValDtls.AssVal + (inv.CalculateTotals).ValDtls.IgstVal)
    ∧ (((exampleInvoice.CalculateTotals).ItemList.getD 0 default).AssAmt = 30000
    ∧ ((exampleInvoice.CalculateTotals).ItemList.getD 0 default).IgstAmt = 5400
    ∧ ((exampleInvoice.CalculateTotals).ItemList.getD 0 default).TotItemVal = 35400
    ∧ (exampleInvoice.CalculateTotals).ValDtls.AssVal = 30000
    ∧ (exampleInvoice.CalculateTotals).ValDtls.IgstVal = 5400
    ∧ (exampleInvoice.CalculateTotals).ValDtls.TotInvVal = 35400) := by
  refine ⟨⟨?_, ?_, ?_, ?_, ?_⟩, ?_⟩
  · simp [EInvoice.CalculateTotals]
  · intro j
    simp only [EInvoice.CalculateTotals, List.getD_eq_getElem?_getD, List.getElem?_map]
    rcases inv.ItemList[j]? with _ | x
    · refine ⟨?_, rfl, ?_, ?_⟩ <;> simp [default, calcItem]
    · exact ⟨rfl, rfl, rfl, rfl⟩
  · simpa [EInvoice.CalculateTotals] using foldl_assAmt_map_calcItem inv.ItemList 0
  · simpa [EInvoice.CalculateTotals] using foldl_igstAmt_map_calcItem inv.ItemList 0
  · rfl
  · refine ⟨?_, ?_, ?_, ?_, ?_, ?_⟩ <;> with_unfolding_all rfl

/-- Recomputing the item list twice equals recomputing it once. -/
theorem map_calcItem_map_calcItem (l : List Item) :
    (l.map calcItem).map calcItem = l.map calcItem := by
  induction l with
  | nil => rfl
  | cons x xs ih => simp only [List.map_cons, calcItem_calcItem, ih]

/-- The item frames of the recomputed list are those of the input list. -/
theorem map_itemFrame_map_calcItem (l : List Item) :
    (l.map calcItem).map itemFrame = l.map itemFrame := by
  induction l with
  | nil => rfl
  | cons x xs ih => simp only [List.map_cons, itemFrame_calcItem, ih]

/-- Mapping a function of the calculation inputs factors through
`itemInputs`. -/
theorem map_comp_itemInputs {α : Type} (f : ℚ × ℚ × ℚ → α) (l : List Item) :
    (l.map fun it => f (itemInputs it)) = (l.map itemInputs).map f := by
  simp [List.map_map]

/-- C8: `CalculateTotals` mutates only the derived fields: all header fields
and every item's `SlNo`, `PrdDesc`, `IsServc`, `HsnCd`, `Qty`, `Unit`,
`UnitPrice`, `GstRt` are unchanged.  (That the operation cannot fail is
expressed by its type in this embedding: `CalculateTotals` is a total
function into `EInvoice` with no error component, mirroring the Go method's
lack of any error path.) -/
theorem claim_C8 (inv : EInvoice) :
    (inv.CalculateTotals).Version = inv.Version
    ∧ (inv.CalculateTotals).TranDtls = inv.TranDtls
    ∧ (inv.CalculateTotals).DocDtls = inv.DocDtls
    ∧ (inv.CalculateTotals).SellerDtls = inv.SellerDtls
    ∧ (inv.CalculateTotals).BuyerDtls = inv.BuyerDtls
    ∧ (inv.CalculateTotals).ExpDtls = inv.ExpDtls
    ∧ (inv.CalculateTotals).ItemList.length = inv.ItemList.length
    ∧ (inv.CalculateTotals).ItemList.map itemFrame = inv.ItemList.map itemFrame := by
  refine ⟨rfl, rfl, rfl, rfl, rfl, rfl, ?_, ?_⟩
  · simp [EInvoice.CalculateTotals]
  · simpa [EInvoice.CalculateTotals] using map_itemFrame_map_calcItem inv.ItemList

/-- C7: recomputation is idempotent and survives serialization: decoding the
encoded aggregate gives it back unchanged, so `CalculateTotals` after a
round-trip produces the same derived fields; running `CalculateTotals` twice
equals running it once; and the computed value details and derived item
fields depend only on the items' quantity, unit price and tax rate. -/
theorem claim_C7 (inv : EInvoice) :
    decodeInvoice (encodeInvoice inv) = some inv
    ∧ (∀ inv2, decodeInvoice (encodeInvoice inv) = some inv2 →
        inv2.CalculateTotals = inv.CalculateTotals)
    ∧ (inv.CalculateTotals).CalculateTotals = inv.CalculateTotals
    ∧ (∀ inv2 : EInvoice, inv2.ItemList.map itemInputs = inv.ItemList.map itemInputs →
        (inv2.CalculateTotals).ValDtls = (inv.CalculateTotals).ValDtls
        ∧ (inv2.CalculateTotals).ItemList.map itemDerived
            = (inv.CalculateTotals).ItemList.map itemDerived) := by
  refine ⟨decodeInvoice_encodeInvoice inv, ?_, ?_, ?_⟩
  · intro inv2 h
    rw [decodeInvoice_encodeInvoice inv] at h
    cases h
    rfl
  · cases inv with
    | mk v t d s b il vd e =>
      simp only [EInvoice.CalculateTotals, map_calcItem_map_calcItem]
  · intro inv2 h
    have hAss : (inv2.ItemList.map fun it => it.Qty * it.UnitPrice)
        = inv.ItemList.map fun it => it.Qty * it.UnitPrice := by
      have h2 := map_comp_itemInputs (fun p => p.1 * p.2.1) inv2.ItemList
      have h1 := map_comp_itemInputs (fun p => p.1 * p.2.1) inv.ItemList
      simp only [itemInputs] at h2 h1
      rw [h2, h1, h]
    have hIgst : (inv2.ItemList.map fun it => it.Qty * it.UnitPrice * it.GstRt / 100)
        = inv.ItemList.map fun it => it.Qty * it.UnitPrice * it.GstRt / 100 := by
      have h2 := map_comp_itemInputs (fun p => p.1 * p.2.1 * p.2.2 / 100) inv2.ItemList
      have h1 := map_comp_itemInputs (fun p => p.1 * p.2.1 * p.2.2 / 100) inv.ItemList
      simp only [itemInputs] at h2 h1
      rw [h2, h1, h]
    have hDer : (inv2.ItemList.map fun it => itemDerived (calcItem it))
        = inv.ItemList.map fun it => itemDerived (calcItem it) := by
      have h2 := map_comp_itemInputs
        (fun p => (p.1 * p.2.1, p.1 * p.2.1, p.1 * p.2.1 * p.2.2 / 100,
                   p.1 * p.2.1 + p.1 * p.2.1 * p.2.2 / 100)) inv2.ItemList
      have h1 := map_comp_itemInputs
        (fun p => (p.1 * p.2.1, p.1 * p.2.1, p.1 * p.2.1 * p.2.2 / 100,
                   p.1 * p.2.1 + p.1 * p.2.1 * p.2.2 / 100)) inv.ItemList
      simp only [itemInputs] at h2 h1
      have e2 : (inv2.ItemList.map fun it => itemDerived (calcItem it))
          = inv2.ItemList.map fun it =>
              (it.Qty * it.UnitPrice, it.Qty * it.UnitPrice,
               it.Qty * it.UnitPrice * it.GstRt / 100,
               it.Qty * it.UnitPrice + it.Qty * it.UnitPrice * it.GstRt / 100) := rfl
      have e1 : (inv.ItemList.map fun it => itemDerived (calcItem it))
          = inv.ItemList.map fun it =>
              (it.Qty * it.UnitPrice, it.Qty * it.UnitPrice,
               it.Qty * it.UnitPrice * it.GstRt / 100,
               it.Qty * it.UnitPrice + it.Qty * it.UnitPrice * it.GstRt / 100) := rfl
      rw [e2, e1, h2, h1, h]
    constructor
    · have a2 := foldl_assAmt_map_calcItem inv2.ItemList 0
      have a1 := foldl_assAmt_map_calcItem inv.ItemList 0
      have g2 := foldl_igstAmt_map_calcItem inv2.ItemList 0
      have g1 := foldl_igstAmt_map_calcItem inv.ItemList 0
      simp only [EInvoice.CalculateTotals, a2, a1, g2, g1, hAss, hIgst]
    · simpa [EInvoice.CalculateTotals, List.map_map] using hDer

/-- C7 witness: at the example invoice, the JSON round-trip restores it, so
a round-tripped copy recomputes to the same totals, and on equal calculation
inputs the value details agree. -/
theorem claim_C7_witness :
    decodeInvoice (encodeInvoice exampleInvoice) = some exampleInvoice
    ∧ exampleInvoice.CalculateTotals = exampleInvoice.CalculateTotals
    ∧ (exampleInvoice.CalculateTotals).ValDtls
        = (exampleInvoice.CalculateTotals).ValDtls := by
  have h := claim_C7 exampleInvoice
  exact ⟨h.1, h.2.1 exampleInvoice h.1, (h.2.2.2 exampleInvoice rfl).1⟩

/-! ## Lemmas about the validation gate -/

/-- A character list of length 15 is a 15-element literal. -/
theorem exists_fifteen (l : List Char) (h : l.length = 15) :
    ∃ c0 c1 c2 c3 c4 c5 c6 c7 c8 c9 c10 c11 c12 c13 c14,
      l = [c0, c1, c2, c3, c4, c5, c6, c7, c8, c9, c10, c11, c12, c13, c14] := by
  obtain ⟨c0, l, rfl⟩ := List.exists_of_length_succ l h
  simp only [List.length_cons, Nat.succ_inj] at h
  obtain ⟨c1, l, rfl⟩ := List.exists_of_length_succ l h
  simp only [List.length_cons, Nat.succ_inj] at h
  obtain ⟨c2, l, rfl⟩ := List.exists_of_length_succ l h
  simp only [List.length_cons, Nat.succ_inj] at h
  obtain ⟨c3, l, rfl⟩ := List.exists_of_length_succ l h
  simp only [List.length_cons, Nat.succ_inj] at h
  obtain ⟨c4, l, rfl⟩ := List.exists_of_length_succ l h
  simp only [List.length_cons, Nat.succ_inj] at h
  obtain ⟨c5, l, rfl⟩ := List.exists_of_length_succ l h
  simp only [List.length_cons, Nat.succ_inj] at h
  obtain ⟨c6, l, rfl⟩ := List.exists_of_length_succ l h
  simp only [List.length_cons, Nat.succ_inj] at h
  obtain ⟨c7, l, rfl⟩ := List.exists_of_length_succ l h
  simp only [List.length_cons, Nat.succ_inj] at h
  obtain ⟨c8, l, rfl⟩ := List.exists_of_length_succ l h
  simp only [List.length_cons, Nat.succ_inj] at h
  obtain ⟨c9, l, rfl⟩ := List.exists_of_length_succ l h
  simp only [List.length_cons, Nat.succ_inj] at h
  obtain ⟨c10, l, rfl⟩ := List.exists_of_length_succ l h
  simp only [List.length_cons, Nat.succ_inj] at h
  obtain ⟨c11, l, rfl⟩ := List.exists_of_length_succ l h
  simp only [List.length_cons, Nat.succ_inj] at h
  obtain ⟨c12, l, rfl⟩ := List.exists_of_length_succ l h
  simp only [List.length_cons, Nat.succ_inj] at h
  obtain ⟨c13, l, rfl⟩ := List.exists_of_length_succ l h
  simp only [List.length_cons, Nat.succ_inj] at h
  obtain ⟨c14, l, rfl⟩ := List.exists_of_length_succ l h
  simp only [List.length_cons, Nat.succ_inj] at h
  obtain rfl := List.length_eq_zero.mp h
  exact ⟨c0, c1, c2, c3, c4, c5, c6, c7, c8, c9, c10, c11, c12, c13, c14, rfl⟩

/-- A string accepted by the GSTIN pattern has exactly 15 characters. -/
theorem length_of_gstinMatch (l : List Char) (h : gstinMatch ⟨l⟩ = true) :
    l.length = 15 := by
  rcases l with _ | ⟨c0, l⟩; · simp [gstinMatch] at h
  rcases l with _ | ⟨c1, l⟩; · simp [gstinMatch] at h
  rcases l with _ | ⟨c2, l⟩; · simp [gstinMatch] at h
  rcases l with _ | ⟨c3, l⟩; · simp [gstinMatch] at h
  rcases l with _ | ⟨c4, l⟩; · simp [gstinMatch] at h
  rcases l with _ | ⟨c5, l⟩; · simp [gstinMatch] at h
  rcases l with _ | ⟨c6, l⟩; · simp [gstinMatch] at h
  rcases l with _ | ⟨c7, l⟩; · simp [gstinMatch] at h
  rcases l with _ | ⟨c8, l⟩; · simp [gstinMatch] at h
  rcases l with _ | ⟨c9, l⟩; · simp [gstinMatch] at h
  rcases l with _ | ⟨c10, l⟩; · simp [gstinMatch] at h
  rcases l with _ | ⟨c11, l⟩; · simp [gstinMatch] at h
  rcases l with _ | ⟨c12, l⟩; · simp [gstinMatch] at h
  rcases l with _ | ⟨c13, l⟩; · simp [gstinMatch] at h
  rcases l with _ | ⟨c14, l⟩; · simp [gstinMatch] at h
  rcases l with _ | ⟨c15, l⟩
  · rfl
  · simp [gstinMatch] at h

/-- The source's regex transcription agrees with the spec's positional
description of the GSTIN format. -/
theorem gstinMatch_iff_spec (s : String) :
    gstinMatch s = true ↔ gstinSpecFormat s := by
  rcases s with ⟨l⟩
  constructor
  · intro h
    have hlen : l.length = 15 := length_of_gstinMatch l h
    obtain ⟨c0, c1, c2, c3, c4, c5, c6, c7, c8, c9, c10, c11, c12, c13, c14, rfl⟩ :=
      exists_fifteen l hlen
    simp only [gstinMatch, Bool.and_eq_true, beq_iff_eq] at h
    obtain ⟨⟨⟨⟨⟨⟨⟨⟨⟨⟨⟨⟨⟨⟨h0, h1⟩, h2⟩, h3⟩, h4⟩, h5⟩, h6⟩, h7⟩, h8⟩, h9⟩, h10⟩,
      h11⟩, h12⟩, h13⟩, h14⟩ := h
    refine ⟨rfl, ?_, ?_, ?_, ?_, ?_, ?_, ?_⟩
    · intro k hk; interval_cases k <;> simpa [List.getD]
    · intro k hk2 hk7; interval_cases k <;> simpa [List.getD]
    · intro k hk7 hk11; interval_cases k <;> simpa [List.getD]
    · simpa [List.getD]
    · simpa [List.getD]
    · simpa [List.getD]
    · simpa [List.getD]
  · rintro ⟨hlen, h1, h2, h3, h4, h5, h6, h7⟩
    obtain ⟨c0, c1, c2, c3, c4, c5, c6, c7, c8, c9, c10, c11, c12, c13, c14, rfl⟩ :=
      exists_fifteen l hlen
    simp only [gstinMatch, Bool.and_eq_true, beq_iff_eq]
    refine ⟨⟨⟨⟨⟨⟨⟨⟨⟨⟨⟨⟨⟨⟨?_, ?_⟩, ?_⟩, ?_⟩, ?_⟩, ?_⟩, ?_⟩, ?_⟩, ?_⟩, ?_⟩, ?_⟩,
      ?_⟩, ?_⟩, ?_⟩, ?_⟩
    · simpa [List.getD] using h1 0 (by norm_num)
    · simpa [List.getD] using h1 1 (by norm_num)
    · simpa [List.getD] using h2 2 (by norm_num) (by norm_num)
    · simpa [List.getD] using h2 3 (by norm_num) (by norm_num)
    · simpa [List.getD] using h2 4 (by norm_num) (by norm_num)
    · simpa [List.getD] using h2 5 (by norm_num) (by norm_num)
    · simpa [List.getD] using h2 6 (by norm_num) (by norm_num)
    · simpa [List.getD] using h3 7 (by norm_num) (by norm_num)
    · simpa [List.getD] using h3 8 (by norm_num) (by norm_num)
    · simpa [List.getD] using h3 9 (by norm_num) (by norm_num)
    · simpa [List.getD] using h3 10 (by norm_num) (by norm_num)
    · simpa [List.getD] using h4
    · simpa [List.getD] using h5
    · simpa [List.getD] using h6
    · simpa [List.getD] using h7

/-- The item loop accepts exactly the lists whose items all have non-negative
quantity and strictly positive unit price. -/
theorem validateItems_ok_iff (l : List Item) :
    validateItems l = Except.ok () ↔ ∀ it ∈ l, 0 ≤ it.Qty ∧ 0 < it.UnitPrice := by
  induction l with
  | nil => simp [validateItems]
  | cons x xs ih =>
      simp only [validateItems]
      by_cases h1 : x.Qty < 0
      · simp only [if_pos h1]
        constructor
        · intro h; exact absurd h (by simp)
        · intro hall
          exact absurd (hall x (List.mem_cons_self x xs)).1 (not_le.mpr h1)
      · by_cases h2 : x.UnitPrice ≤ 0
        · simp only [if_neg h1, if_pos h2]
          constructor
          · intro h; exact absurd h (by simp)
          · intro hall
            exact absurd (hall x (List.mem_cons_self x xs)).2 (not_lt.mpr h2)
        · simp only [if_neg h1, if_neg h2, ih]
          constructor
          · intro hxs it hit
            rcases List.mem_cons.mp hit with rfl | hmem
            · exact ⟨not_lt.mp h1, not_le.mp h2⟩
            · exact hxs it hmem
          · intro hall it hit
            exact hall it (List.mem_cons_of_mem x hit)

/-- An error from the item loop names the violated rule, and an item
violating that rule exists. -/
theorem validateItems_error (l : List Item) (e : String)
    (h : validateItems l = Except.error e) :
    (e = "quantity cannot be negative" ∧ ∃ it ∈ l, it.Qty < 0)
    ∨ (e = "unit price must be greater than zero" ∧ ∃ it ∈ l, it.UnitPrice ≤ 0) := by
  induction l with
  | nil => simp [validateItems] at h
  | cons x xs ih =>
      simp only [validateItems] at h
      by_cases h1 : x.Qty < 0
      · rw [if_pos h1] at h
        simp only [Except.error.injEq] at h
        exact Or.inl ⟨h.symm, x, List.mem_cons_self x xs, h1⟩
      · rw [if_neg h1] at h
        by_cases h2 : x.UnitPrice ≤ 0
        · rw [if_pos h2] at h
          simp only [Except.error.injEq] at h
          exact Or.inr ⟨h.symm, x, List.mem_cons_self x xs, h2⟩
        · rw [if_neg h2] at h
          rcases ih h with ⟨he, it, hm, hq⟩ | ⟨he, it, hm, hp⟩
          · exact Or.inl ⟨he, it, List.mem_cons_of_mem x hm, hq⟩
          · exact Or.inr ⟨he, it, List.mem_cons_of_mem x hm, hp⟩

/-- C5: `Validate` accepts a seller GSTIN (i.e. does not return the
format error) if and only if it is 15 characters of the form 2 digits,
5 uppercase letters, 4 digits, 1 uppercase letter, 1 alphanumeric, the
literal `Z`, 1 alphanumeric; any deviation yields the error naming the
seller GSTIN field.  `"07AADCS0472N1Z1"` matches and the 14-character
`"07AADCS0472N1Z"` does not. -/
theorem claim_C5 (inv : EInvoice) :
    ((inv.Validate = Except.error "invalid seller GSTIN format")
        ↔ ¬ gstinSpecFormat inv.SellerDtls.Gstin)
    ∧ (gstinSpecFormat inv.SellerDtls.Gstin →
        inv.Validate = validateItems inv.ItemList)
    ∧ gstinMatch "07AADCS0472N1Z1" = true
    ∧ gstinMatch "07AADCS0472N1Z" = false := by
  have hdis : ∀ e, validateItems inv.ItemList = Except.error e →
      e ≠ "invalid seller GSTIN format" := by
    intro e he
    rcases validateItems_error inv.ItemList e he with ⟨rfl, -⟩ | ⟨rfl, -⟩ <;> decide
  by_cases hg : gstinMatch inv.SellerDtls.Gstin = true
  · have hspec : gstinSpecFormat inv.SellerDtls.Gstin :=
      (gstinMatch_iff_spec inv.SellerDtls.Gstin).mp hg
    have hval : inv.Validate = validateItems inv.ItemList := by
      simp [EInvoice.Validate, hg]
    refine ⟨?_, fun _ => hval, by decide, by decide⟩
    constructor
    · intro herr
      rw [hval] at herr
      exact absurd rfl (hdis _ herr)
    · intro hns; exact absurd hspec hns
  · have hspec : ¬ gstinSpecFormat inv.SellerDtls.Gstin := by
      intro hs
      exact hg ((gstinMatch_iff_spec inv.SellerDtls.Gstin).mpr hs)
    have hval : inv.Validate = Except.error "invalid seller GSTIN format" := by
      simp [EInvoice.Validate, Bool.eq_false_iff.mpr hg]
    exact ⟨⟨fun _ => hspec, fun _ => hval⟩, fun hs => absurd hs hspec,
      by decide, by decide⟩

/-- C5 witness: at the example invoice, whose GSTIN is the passing
`"07AADCS0472N1Z1"`, `Validate` proceeds to the item checks. -/
theorem claim_C5_witness :
    exampleInvoice.Validate = validateItems exampleInvoice.ItemList :=
  (claim_C5 exampleInvoice).2.1
    ((gstinMatch_iff_spec exampleInvoice.SellerDtls.Gstin).mp (by decide))

/-- C6: for an invoice whose seller GSTIN is valid, `Validate` succeeds if
and only if every line item has non-negative quantity and strictly positive
unit price (quantity 0 permitted, unit price 0 rejected), and a returned
error names the violated rule, witnessed by an offending item. -/
theorem claim_C6 (inv : EInvoice)
    (hg : gstinMatch inv.SellerDtls.Gstin = true) :
    (inv.Validate = Except.ok () ↔ ∀ it ∈ inv.ItemList, 0 ≤ it.Qty ∧ 0 < it.UnitPrice)
    ∧ (∀ e, inv.Validate = Except.error e →
        (e = "quantity cannot be negative" ∧ ∃ it ∈ inv.ItemList, it.Qty < 0)
        ∨ (e = "unit price must be greater than zero"
            ∧ ∃ it ∈ inv.ItemList, it.UnitPrice ≤ 0)) := by
  have hval : inv.Validate = validateItems inv.ItemList := by
    simp [EInvoice.Validate, hg]
  rw [hval]
  exact ⟨validateItems_ok_iff inv.ItemList, validateItems_error inv.ItemList⟩

/-- C6 witness: at the bad-price invoice, whose seller GSTIN is valid but
whose single item has unit price 0, the returned error names the price
rule. -/
theorem claim_C6_witness :
    ("unit price must be greater than zero" = "quantity cannot be negative"
        ∧ ∃ it ∈ badPriceInvoice.ItemList, it.Qty < 0)
    ∨ ("unit price must be greater than zero" = "unit price must be greater than zero"
        ∧ ∃ it ∈ badPriceInvoice.ItemList, it.UnitPrice ≤ 0) :=
  (claim_C6 badPriceInvoice (by decide)).2
    "unit price must be greater than zero" (by with_unfolding_all rfl)

/-! ## Lemmas about the grouping maps -/

/-- A key is absent from an association list iff lookup fails. -/
theorem lookupA_eq_none_iff {α : Type} (k : String) (m : List (String × α)) :
    lookupA k m = none ↔ k ∉ m.map Prod.fst := by
  induction m with
  | nil => simp [lookupA]
  | cons p m ih =>
      by_cases h : p.1 = k
      · simp [lookupA, h]
      · simp [lookupA, h, ih, Ne.symm h]

/-- Lookup of a present key ignores an appended suffix. -/
theorem lookupA_append_of_some {α : Type} {k : String} {m : List (String × α)}
    {v : α} (h : lookupA k m = some v) (m' : List (String × α)) :
    lookupA k (m ++ m') = some v := by
  induction m with
  | nil => simp [lookupA] at h
  | cons p m ih =>
      by_cases hp : p.1 = k
      · simp_all [lookupA]
      · simp only [lookupA, if_neg hp] at h
        simpa [lookupA, hp] using ih h

/-- Lookup of an absent key falls through to the appended suffix. -/
theorem lookupA_append_of_none {α : Type} {k : String} {m : List (String × α)}
    (h : lookupA k m = none) (m' : List (String × α)) :
    lookupA k (m ++ m') = lookupA k m' := by
  induction m with
  | nil => simp
  | cons p m ih =>
      by_cases hp : p.1 = k
      · simp [lookupA, hp] at h
      · simp only [lookupA, if_neg hp] at h
        simpa [lookupA, hp] using ih h

/-- Assignment preserves the key sequence for a present key and appends the
key otherwise. -/
theorem setA_map_fst {α : Type} (k : String) (v : α) (m : List (String × α)) :
    (setA k v m).map Prod.fst
      = if k ∈ m.map Prod.fst then m.map Prod.fst else m.map Prod.fst ++ [k] := by
  induction m with
  | nil => simp [setA]
  | cons p m ih =>
      by_cases hp : p.1 = k
      · simp [setA, hp]
      · simp only [setA, if_neg hp, List.map_cons, ih]
        by_cases hk : k ∈ m.map Prod.fst
        · simp [hk, Ne.symm hp]
        · simp [hk, Ne.symm hp]

/-- Looking up the key just assigned gives the assigned value. -/
theorem lookupA_setA_self {α : Type} (k : String) (v : α) (m : List (String × α)) :
    lookupA k (setA k v m) = some v := by
  induction m with
  | nil => simp [setA, lookupA]
  | cons p m ih =>
      by_cases hp : p.1 = k
      · simp [setA, hp, lookupA]
      · simp [setA, hp, lookupA, ih]

/-- Assignment does not disturb lookups of other keys. -/
theorem lookupA_setA_ne {α : Type} {k k' : String} (h : k' ≠ k) (v : α)
    (m : List (String × α)) : lookupA k' (setA k v m) = lookupA k' m := by
  have hkk : ¬ k = k' := fun hh => h hh.symm
  induction m with
  | nil => simp [setA, lookupA, hkk]
  | cons p m ih =>
      by_cases hp : p.1 = k
      · simp only [setA, if_pos hp, lookupA, if_neg hkk, if_neg (hp ▸ hkk)]
      · simp only [setA, if_neg hp, lookupA]
        by_cases hp' : p.1 = k'
        · simp [hp']
        · simp [hp', ih]

/-- In a list whose keys are distinct, membership determines lookup. -/
theorem lookupA_eq_of_mem_of_nodup {α : Type} {k : String} {v : α}
    {m : List (String × α)} (hnd : (m.map Prod.fst).Nodup)
    (hm : (k, v) ∈ m) : lookupA k m = some v := by
  induction m with
  | nil => simp at hm
  | cons p m ih =>
      simp only [List.map_cons, List.nodup_cons] at hnd
      rcases List.mem_cons.mp hm with rfl | hmem
      · simp [lookupA]
      · have hne : p.1 ≠ k := by
          intro hk
          exact hnd.1 (hk ▸ (List.mem_map.mpr ⟨(k, v), hmem, rfl⟩))
        simp [lookupA, hne, ih hnd.2 hmem]

/-! ## Lemmas about first-occurrence keys -/

/-- Appending one key to the scanned sequence appends it to the key list
exactly when it is new. -/
theorem firstKeysAux_append_single (seen : List String) (ks : List String)
    (k : String) :
    firstKeysAux seen (ks ++ [k])
      = if k ∈ seen ∨ k ∈ ks then firstKeysAux seen ks
        else firstKeysAux seen ks ++ [k] := by
  induction ks generalizing seen with
  | nil =>
      by_cases h : k ∈ seen
      · simp [firstKeysAux, h]
      · simp [firstKeysAux, h]
  | cons k0 ks ih =>
      rw [List.cons_append]
      by_cases h0 : k0 ∈ seen
      · rw [show firstKeysAux seen (k0 :: (ks ++ [k])) = firstKeysAux seen (ks ++ [k])
            from by rw [firstKeysAux, if_pos h0],
          show firstKeysAux seen (k0 :: ks) = firstKeysAux seen ks
            from by rw [firstKeysAux, if_pos h0],
          ih seen]
        by_cases hk : k ∈ seen ∨ k ∈ ks
        · rw [if_pos hk, if_pos (by
            rcases hk with h | h
            · exact Or.inl h
            · exact Or.inr (List.mem_cons_of_mem k0 h))]
        · rw [if_neg hk, if_neg (by
            rintro (h | h)
            · exact hk (Or.inl h)
            · rcases List.mem_cons.mp h with rfl | h
              · exact hk (Or.inl h0)
              · exact hk (Or.inr h))]
      · rw [show firstKeysAux seen (k0 :: (ks ++ [k]))
              = k0 :: firstKeysAux (k0 :: seen) (ks ++ [k])
            from by rw [firstKeysAux, if_neg h0],
          show firstKeysAux seen (k0 :: ks) = k0 :: firstKeysAux (k0 :: seen) ks
            from by rw [firstKeysAux, if_neg h0],
          ih (k0 :: seen)]
        by_cases hk : k ∈ k0 :: seen ∨ k ∈ ks
        · rw [if_pos hk, if_pos (by
            rcases hk with h | h
            · rcases List.mem_cons.mp h with rfl | h
              · exact Or.inr (List.mem_cons_self k ks)
              · exact Or.inl h
            · exact Or.inr (List.mem_cons_of_mem k0 h))]
        · rw [if_neg hk, if_neg (by
            rintro (h | h)
            · exact hk (Or.inl (List.mem_cons_of_mem k0 h))
            · rcases List.mem_cons.mp h with rfl | h
              · exact hk (Or.inl (List.mem_cons_self k seen))
              · exact hk (Or.inr h))]
          simp

/-- Membership in the first-occurrence list. -/
theorem mem_firstKeysAux (seen ks : List String) (k : String) :
    k ∈ firstKeysAux seen ks ↔ k ∉ seen ∧ k ∈ ks := by
  induction ks generalizing seen with
  | nil => simp [firstKeysAux]
  | cons k0 ks ih =>
      by_cases h0 : k0 ∈ seen
      · rw [firstKeysAux, if_pos h0, ih]
        constructor
        · rintro ⟨hs, hm⟩; exact ⟨hs, List.mem_cons_of_mem k0 hm⟩
        · rintro ⟨hs, hm⟩
          rcases List.mem_cons.mp hm with rfl | hm
          · exact absurd h0 hs
          · exact ⟨hs, hm⟩
      · rw [firstKeysAux, if_neg h0]
        constructor
        · intro hm
          rcases List.mem_cons.mp hm with rfl | hm
          · exact ⟨h0, List.mem_cons_self k ks⟩
          · rcases (ih (k0 :: seen)).mp hm with ⟨hs, hmem⟩
            exact ⟨fun hk => hs (List.mem_cons_of_mem k0 hk),
              List.mem_cons_of_mem k0 hmem⟩
        · rintro ⟨hs, hm⟩
          rcases List.mem_cons.mp hm with rfl | hm
          · exact List.mem_cons_self k _
          · by_cases hk0 : k = k0
            · exact hk0 ▸ List.mem_cons_self k0 _
            · exact List.mem_cons_of_mem k0 ((ih (k0 :: seen)).mpr
                ⟨by simp [hk0, hs], hm⟩)

/-- The first-occurrence key list has no duplicates. -/
theorem firstKeysAux_nodup (seen ks : List String) :
    (firstKeysAux seen ks).Nodup := by
  induction ks generalizing seen with
  | nil => simp [firstKeysAux]
  | cons k0 ks ih =>
      by_cases h0 : k0 ∈ seen
      · rw [firstKeysAux, if_pos h0]; exact ih seen
      · rw [firstKeysAux, if_neg h0]
        refine List.nodup_cons.mpr ⟨?_, ih (k0 :: seen)⟩
        intro hmem
        exact ((mem_firstKeysAux (k0 :: seen) ks k0).mp hmem).1
          (List.mem_cons_self k0 seen)

/-! ## Lemmas about first rows, filtered rows and per-group items -/

/-- A found first match persists under appending rows. -/
theorem find?_append_of_some {p : List Row} {pred : Row → Bool} {r : Row}
    (h : p.find? pred = some r) (q : List Row) :
    (p ++ q).find? pred = some r := by
  induction p with
  | nil => simp [List.find?] at h
  | cons r0 p ih =>
      cases hp : pred r0 with
      | true =>
          rw [List.find?_cons_of_pos _ hp] at h
          rw [List.cons_append, List.find?_cons_of_pos _ hp]
          exact h
      | false =>
          rw [List.find?_cons_of_neg _ (by simp [hp])] at h
          rw [List.cons_append, List.find?_cons_of_neg _ (by simp [hp])]
          exact ih h

/-- An unsuccessful search falls through to the appended rows. -/
theorem find?_append_of_none {p : List Row} {pred : Row → Bool}
    (h : p.find? pred = none) (q : List Row) :
    (p ++ q).find? pred = q.find? pred := by
  induction p with
  | nil => simp
  | cons r0 p ih =>
      cases hp : pred r0 with
      | true => rw [List.find?_cons_of_pos _ hp] at h; cases h
      | false =>
          rw [List.find?_cons_of_neg _ (by simp [hp])] at h
          rw [List.cons_append, List.find?_cons_of_neg _ (by simp [hp])]
          exact ih h

/-- The search for a key fails exactly when no row carries it. -/
theorem find?_rowKey_eq_none_iff (p : List Row) (k : String) :
    (p.find? fun r => rowKey r == k) = none ↔ k ∉ p.map rowKey := by
  induction p with
  | nil => simp
  | cons r0 p ih =>
      by_cases h0 : rowKey r0 = k
      · rw [List.find?_cons_of_pos _ (by simp [h0])]
        simp [h0]
      · rw [List.find?_cons_of_neg _ (by simp [h0])]
        simp [ih, h0, Ne.symm h0]

/-- Rows of an absent key filter to nothing. -/
theorem rowsWithKey_eq_nil_of_not_mem {p : List Row} {k : String}
    (h : k ∉ p.map rowKey) : rowsWithKey k p = [] := by
  induction p with
  | nil => rfl
  | cons r0 p ih =>
      simp only [List.map_cons, List.mem_cons] at h
      push_neg at h
      simp only [rowsWithKey, List.filter_cons]
      rw [if_neg (by simp [Ne.symm h.1])]
      exact ih h.2

/-- Appending a row extends exactly its own key's filtered rows. -/
theorem rowsWithKey_append_single (k : String) (p : List Row) (r : Row) :
    rowsWithKey k (p ++ [r])
      = rowsWithKey k p ++ if rowKey r = k then [r] else [] := by
  simp only [rowsWithKey, List.filter_append]
  congr 1
  by_cases h : rowKey r = k
  · simp [List.filter_cons, h]
  · simp [List.filter_cons, h]

/-- Length of the serial-numbered item list. -/
theorem itemsFromAux_length (n : Nat) (rs : List Row) :
    (itemsFromAux n rs).length = rs.length := by
  induction rs generalizing n with
  | nil => rfl
  | cons r rs ih => simp [itemsFromAux, ih]

/-- Appending a row appends its item, serial-numbered by position. -/
theorem itemsFromAux_append_single (n : Nat) (rs : List Row) (r : Row) :
    itemsFromAux n (rs ++ [r]) = itemsFromAux n rs ++ [mkItem (n + rs.length) r] := by
  induction rs generalizing n with
  | nil => simp [itemsFromAux]
  | cons r0 rs ih =>
      simp only [List.cons_append, itemsFromAux, List.append_eq, ih,
        List.length_cons]
      rw [show n + 1 + rs.length = n + (rs.length + 1) from by omega]

/-- Serial numbers of the generated items are consecutive decimals. -/
theorem itemsFromAux_map_slNo (n : Nat) (rs : List Row) :
    (itemsFromAux n rs).map Item.SlNo
      = (List.range rs.length).map fun j => toString (n + j) := by
  induction rs generalizing n with
  | nil => rfl
  | cons r rs ih =>
      simp only [itemsFromAux, List.map_cons, List.length_cons,
        List.range_succ_eq_map, ih, List.map_map]
      refine congrArg₂ _ (by simp [mkItem]) ?_
      refine List.map_congr_left fun j _ => ?_
      simp [Function.comp]
      rw [show n + 1 + j = n + (j + 1) from by omega]

/-! ## The grouping invariant -/

/-- Invariant of the row loop of `handleUploadExcel` after the data rows `p`
have been consumed: both maps list the distinct document numbers in order of
first occurrence; each key's header is built from the first row carrying it;
each key's items are one per carrying row, in input order, serials from 1. -/
def GroupInv (p : List Row) (st : GroupState) : Prop :=
  st.invoiceMap.map Prod.fst = firstKeys (p.map rowKey)
  ∧ st.itemMap.map Prod.fst = firstKeys (p.map rowKey)
  ∧ (∀ k, lookupA k st.invoiceMap
      = (p.find? fun r => rowKey r == k).map mkInvoice)
  ∧ (∀ k, lookupA k st.itemMap
      = if k ∈ p.map rowKey then some (itemsFrom (rowsWithKey k p)) else none)

/-- The empty state satisfies the invariant for no consumed rows. -/
theorem groupInv_nil : GroupInv [] initGroupState := by
  refine ⟨rfl, rfl, fun k => rfl, fun k => by simp [lookupA, initGroupState]⟩

/-- Assigning a key that only occurs in the final appended binding replaces
that binding. -/
theorem setA_append_self {α : Type} {k : String} {m : List (String × α)}
    (h : lookupA k m = none) (v w : α) :
    setA k v (m ++ [(k, w)]) = m ++ [(k, v)] := by
  induction m with
  | nil => simp [setA]
  | cons p m ih =>
      by_cases hp : p.1 = k
      · simp [lookupA, hp] at h
      · simp only [lookupA, if_neg hp] at h
        simp [setA, hp, ih h]

/-- One step of the row loop preserves the grouping invariant. -/
theorem groupInv_processRow (p : List Row) (st : GroupState) (row : Row)
    (h : GroupInv p st) : GroupInv (p ++ [row]) (processRow st row) := by
  obtain ⟨hik, hmk, hinv, hitm⟩ := h
  have hmapkey : (p ++ [row]).map rowKey = p.map rowKey ++ [rowKey row] := by simp
  by_cases hc : rowKey row ∈ p.map rowKey
  · -- the key has been seen: only an item is appended
    obtain ⟨r0, hr0⟩ : ∃ r0, (p.find? fun r => rowKey r == rowKey row) = some r0 := by
      rcases hopt : p.find? fun r => rowKey r == rowKey row with _ | r0
      · exact absurd ((find?_rowKey_eq_none_iff p (rowKey row)).mp hopt)
          (by simpa using hc)
      · exact ⟨r0, rfl⟩
    have hlook : lookupA (row.getD 1 "") st.invoiceMap = some (mkInvoice r0) := by
      rw [show (row.getD 1 "") = rowKey row from rfl, hinv, hr0]; rfl
    have hitems : lookupA (rowKey row) st.itemMap
        = some (itemsFrom (rowsWithKey (rowKey row) p)) := by
      rw [hitm, if_pos hc]
    have hpr : processRow st row
        = { st with
            itemMap := (setA (rowKey row)
              (itemsFrom (rowsWithKey (rowKey row) p)
                ++ [mkItem ((itemsFrom (rowsWithKey (rowKey row) p)).length + 1) row])
              st.itemMap) } := by
      simp only [processRow]
      rw [hlook]
      show ({ st with
              itemMap := (setA (rowKey row)
                (((lookupA (rowKey row) st.itemMap).getD [])
                  ++ [mkItem (((lookupA (rowKey row) st.itemMap).getD []).length + 1) row])
                st.itemMap) } : GroupState) = _
      rw [hitems]
      rfl
    rw [hpr]
    have hfkeys : firstKeys ((p ++ [row]).map rowKey) = firstKeys (p.map rowKey) := by
      rw [hmapkey, firstKeys, firstKeysAux_append_single, if_pos (Or.inr hc)]
      rfl
    have hmemItem : rowKey row ∈ st.itemMap.map Prod.fst := by
      rw [hmk]
      exact (mem_firstKeysAux [] (p.map rowKey) (rowKey row)).mpr ⟨by simp, hc⟩
    refine ⟨by rw [hfkeys]; exact hik, ?_, ?_, ?_⟩
    · show (setA (rowKey row) _ st.itemMap).map Prod.fst = _
      rw [setA_map_fst, if_pos hmemItem, hfkeys]
      exact hmk
    · intro k
      show lookupA k st.invoiceMap = _
      rw [hinv k]
      rcases hfk : p.find? fun r => rowKey r == k with _ | r
      · have hkne : rowKey row ≠ k := by
          intro hkk
          exact ((find?_rowKey_eq_none_iff p k).mp hfk) (hkk ▸ hc)
        rw [find?_append_of_none hfk [row],
          List.find?_cons_of_neg _ (by simp [hkne]), List.find?_nil]
      · rw [find?_append_of_some hfk [row]]
    · intro k
      by_cases hkK : k = rowKey row
      · rw [hkK]
        show lookupA (rowKey row) (setA (rowKey row)
          (itemsFrom (rowsWithKey (rowKey row) p)
            ++ [mkItem ((itemsFrom (rowsWithKey (rowKey row) p)).length + 1) row])
          st.itemMap) = _
        rw [lookupA_setA_self,
          if_pos (by rw [hmapkey]; exact List.mem_append_left _ hc),
          rowsWithKey_append_single, if_pos rfl]
        simp only [itemsFrom, itemsFromAux_append_single, itemsFromAux_length]
        rw [Nat.add_comm 1 (rowsWithKey (rowKey row) p).length]
      · show lookupA k (setA (rowKey row) _ st.itemMap) = _
        rw [lookupA_setA_ne hkK, hitm k, rowsWithKey_append_single,
          if_neg (show ¬ rowKey row = k from fun hh => hkK hh.symm),
          List.append_nil]
        by_cases hkmem : k ∈ p.map rowKey
        · rw [if_pos hkmem,
            if_pos (by rw [hmapkey]; exact List.mem_append_left _ hkmem)]
        · rw [if_neg hkmem, if_neg (by
            rw [hmapkey]
            intro hh
            rcases List.mem_append.mp hh with hh | hh
            · exact hkmem hh
            · exact hkK (List.mem_singleton.mp hh))]
  · -- a fresh key: a new aggregate is created, then its first item appended
    have hfindnone : (p.find? fun r => rowKey r == rowKey row) = none :=
      (find?_rowKey_eq_none_iff p (rowKey row)).mpr hc
    have hlooknone : lookupA (row.getD 1 "") st.invoiceMap = none := by
      rw [show (row.getD 1 "") = rowKey row from rfl, hinv, hfindnone]; rfl
    have hitemsnone : lookupA (rowKey row) st.itemMap = none := by
      rw [hitm, if_neg hc]
    have happend : lookupA (rowKey row)
        (st.itemMap ++ [(rowKey row, ([] : List Item))]) = some [] := by
      rw [lookupA_append_of_none hitemsnone]
      simp [lookupA]
    have hpr : processRow st row
        = { invoiceMap := st.invoiceMap ++ [(rowKey row, mkInvoice row)]
            itemMap := st.itemMap ++ [(rowKey row, [mkItem 1 row])] } := by
      simp only [processRow]
      rw [hlooknone]
      show ({ invoiceMap := st.invoiceMap ++ [(rowKey row, mkInvoice row)]
              itemMap := (setA (rowKey row)
                (((lookupA (rowKey row)
                    (st.itemMap ++ [(rowKey row, ([] : List Item))])).getD [])
                  ++ [mkItem (((lookupA (rowKey row)
                      (st.itemMap ++ [(rowKey row, ([] : List Item))])).getD []).length
                    + 1) row])
                (st.itemMap ++ [(rowKey row, ([] : List Item))])) } : GroupState) = _
      rw [happend, setA_append_self hitemsnone]
      rfl
    rw [hpr]
    have hfkeys : firstKeys ((p ++ [row]).map rowKey)
        = firstKeys (p.map rowKey) ++ [rowKey row] := by
      rw [hmapkey, firstKeys, firstKeysAux_append_single, if_neg (by simp [hc])]
      rfl
    refine ⟨?_, ?_, ?_, ?_⟩
    · show (st.invoiceMap ++ [(rowKey row, mkInvoice row)]).map Prod.fst = _
      rw [List.map_append, hik, hfkeys]
      rfl
    · show (st.itemMap ++ [(rowKey row, [mkItem 1 row])]).map Prod.fst = _
      rw [List.map_append, hmk, hfkeys]
      rfl
    · intro k
      show lookupA k (st.invoiceMap ++ [(rowKey row, mkInvoice row)]) = _
      rcases hlk : lookupA k st.invoiceMap with _ | v
      · have hfk : (p.find? fun r => rowKey r == k) = none := by
          have := hinv k
          rw [hlk] at this
          exact (Option.map_eq_none.mp this.symm)
        rw [lookupA_append_of_none hlk, find?_append_of_none hfk [row]]
        by_cases hkK : rowKey row = k
        · subst hkK
          rw [List.find?_cons_of_pos _ (by simp)]
          simp [lookupA]
        · rw [List.find?_cons_of_neg _ (by simp [hkK]), List.find?_nil]
          simp [lookupA, hkK]
      · have hfk : ∃ r1, (p.find? fun r => rowKey r == k) = some r1
            ∧ mkInvoice r1 = v := by
          have := hinv k
          rw [hlk] at this
          rcases Option.map_eq_some.mp this.symm with ⟨r1, hr1, hv⟩
          exact ⟨r1, hr1, hv⟩
        obtain ⟨r1, hr1, hv⟩ := hfk
        rw [lookupA_append_of_some hlk, find?_append_of_some hr1 [row]]
        simp [hv]
    · intro k
      show lookupA k (st.itemMap ++ [(rowKey row, [mkItem 1 row])]) = _
      by_cases hkK : k = rowKey row
      · subst hkK
        rw [lookupA_append_of_none hitemsnone]
        rw [if_pos (by rw [hmapkey]; exact List.mem_append_right _ (by simp))]
        rw [rowsWithKey_append_single, if_pos rfl,
          rowsWithKey_eq_nil_of_not_mem hc]
        simp [lookupA, itemsFrom, itemsFromAux]
      · rcases hlk : lookupA k st.itemMap with _ | w
        · have hknp : k ∉ p.map rowKey := by
            have := hitm k
            rw [hlk] at this
            by_contra hmem
            rw [if_pos hmem] at this
            exact Option.noConfusion this
          rw [lookupA_append_of_none hlk]
          rw [if_neg (by
            rw [hmapkey]
            intro hh
            rcases List.mem_append.mp hh with hh | hh
            · exact hknp hh
            · exact hkK (List.mem_singleton.mp hh))]
          simp [lookupA, Ne.symm hkK]
        · have hkp : k ∈ p.map rowKey := by
            have := hitm k
            rw [hlk] at this
            by_contra hmem
            rw [if_neg hmem] at this
            exact Option.noConfusion this
          have hw := hitm k
          rw [hlk, if_pos hkp] at hw
          rw [lookupA_append_of_some hlk,
            if_pos (by rw [hmapkey]; exact List.mem_append_left _ hkp),
            rowsWithKey_append_single,
            if_neg (show ¬ rowKey row = k from fun hh => hkK hh.symm),
            List.append_nil]
          exact hw

/-- A successful run of the data-row loop establishes the invariant for all
consumed rows (and hence implies every row had at least 12 columns). -/
theorem groupRowsAux_ok (rs : List Row) :
    ∀ (i : Nat) (st st' : GroupState) (p : List Row),
    GroupInv p st → groupRowsAux i st rs = Except.ok st' →
    GroupInv (p ++ rs) st' := by
  induction rs with
  | nil =>
      intro i st st' p h hok
      simp only [groupRowsAux] at hok
      cases hok
      simpa using h
  | cons r rs ih =>
      intro i st st' p h hok
      simp only [groupRowsAux] at hok
      by_cases hlen : r.length < 12
      · rw [if_pos hlen] at hok
        exact absurd hok (by simp)
      · rw [if_neg hlen] at hok
        have := ih (i + 1) (processRow st r) st' (p ++ [r])
          (groupInv_processRow p st r h) hok
        simpa [List.append_assoc] using this

/-- A successful grouping run satisfies the invariant for the data rows
(every row after the skipped header). -/
theorem groupRows_inv (rows : List Row) (st : GroupState)
    (h : groupRows rows = Except.ok st) : GroupInv (rows.drop 1) st := by
  rcases rows with _ | ⟨r0, dataRows⟩
  · simp [groupRows] at h
  · simp only [groupRows] at h
    by_cases hlen : (r0 :: dataRows).length < 2
    · rw [if_pos hlen] at h
      exact absurd h (by simp)
    · rw [if_neg hlen] at h
      have := groupRowsAux_ok dataRows 1 initGroupState st [] groupInv_nil h
      simpa using this

/-- C2: on a successful bulk-import grouping, there is exactly one aggregate
per distinct document number, listed in order of first occurrence; each
aggregate's header comes from the first row carrying its key; each carrying
row contributes one item, in input order; and item serial numbers are
`"1", "2", "3", ...` by append order. -/
theorem claim_C2 (rows : List Row) (st : GroupState)
    (h : groupRows rows = Except.ok st) :
    ((st.entries.map fun e => e.1) = firstKeys ((rows.drop 1).map rowKey)
    ∧ (st.entries.map fun e => e.1).Nodup)
    ∧ ∀ e ∈ st.entries,
        ((rows.drop 1).find? fun r => rowKey r == e.1).map mkInvoice = some e.2.1
        ∧ e.2.2 = itemsFrom (rowsWithKey e.1 (rows.drop 1))
        ∧ e.2.2.length = (rowsWithKey e.1 (rows.drop 1)).length
        ∧ e.2.2.map Item.SlNo
            = (List.range e.2.2.length).map fun j => toString (j + 1) := by
  obtain ⟨hik, hmk, hinv, hitm⟩ := groupRows_inv rows st h
  have hkeys : (st.entries.map fun e => e.1)
      = firstKeys ((rows.drop 1).map rowKey) := by
    rw [GroupState.entries, List.map_map]
    exact hik
  refine ⟨⟨hkeys, by rw [hkeys]; exact firstKeysAux_nodup [] _⟩, ?_⟩
  intro e he
  rw [GroupState.entries] at he
  obtain ⟨⟨k, inv⟩, hmem, rfl⟩ := List.mem_map.mp he
  have hndk : (st.invoiceMap.map Prod.fst).Nodup := by
    rw [hik]; exact firstKeysAux_nodup [] _
  have hlook : lookupA k st.invoiceMap = some inv :=
    lookupA_eq_of_mem_of_nodup hndk hmem
  have hfind : ((rows.drop 1).find? fun r => rowKey r == k).map mkInvoice
      = some inv := by rw [← hinv k]; exact hlook
  have hkmem : k ∈ (rows.drop 1).map rowKey := by
    by_contra hno
    rw [(find?_rowKey_eq_none_iff _ k).mpr hno] at hfind
    exact Option.noConfusion hfind
  have hitemsk : lookupA k st.itemMap
      = some (itemsFrom (rowsWithKey k (rows.drop 1))) := by
    rw [hitm k, if_pos hkmem]
  refine ⟨hfind, ?_, ?_, ?_⟩
  · show (lookupA k st.itemMap).getD [] = _
    rw [hitemsk]
    rfl
  · show ((lookupA k st.itemMap).getD []).length = _
    rw [hitemsk, Option.getD_some, itemsFrom, itemsFromAux_length]
  · show ((lookupA k st.itemMap).getD []).map Item.SlNo = _
    rw [hitemsk, Option.getD_some, itemsFrom, itemsFromAux_map_slNo,
      itemsFromAux_length]
    exact List.map_congr_left fun j _ => by rw [Nat.add_comm]

/-- C2 witness: two data rows sharing document number `DOC1` group into one
aggregate whose two items carry serials `"1"` and `"2"` in input order. -/
theorem claim_C2_witness :
    ((exampleGrouped.entries.map fun e => e.1)
        = firstKeys ((exampleRows.drop 1).map rowKey)
    ∧ (exampleGrouped.entries.map fun e => e.1).Nodup)
    ∧ ∀ e ∈ exampleGrouped.entries,
        ((exampleRows.drop 1).find? fun r => rowKey r == e.1).map mkInvoice
            = some e.2.1
        ∧ e.2.2 = itemsFrom (rowsWithKey e.1 (exampleRows.drop 1))
        ∧ e.2.2.length = (rowsWithKey e.1 (exampleRows.drop 1)).length
        ∧ e.2.2.map Item.SlNo
            = (List.range e.2.2.length).map fun j => toString (j + 1) :=
  claim_C2 exampleRows exampleGrouped (by with_unfolding_all rfl)

/-- C3 counterexample: in the batch `mixedRows`, aggregate `DOC2` fails
validation and the batch aborts with an error naming it — yet aggregate
`DOC1`, iterated first (in insertion order, one admissible order of the
unspecified Go map iteration), has already been persisted.  This refutes
"no aggregate of that batch is persisted". -/
theorem claim_C3_counterexample :
    (uploadCore mixedRows).2
        = some "Invoice DOC2: unit price must be greater than zero"
    ∧ (uploadCore mixedRows).1.map PersistRecord.invoice_no = ["DOC1"] := by
  constructor
  · with_unfolding_all rfl
  · with_unfolding_all rfl

/-- C3 (amended): the per-aggregate loop interleaves totalling, validation
and persistence; when the aggregates iterated before the failing one all
validate, the loop persists exactly those and aborts at the failing one with
an error naming its document number and the violated rule — aggregates from
the failing one on are not persisted, but the earlier ones already are. -/
theorem claim_C3 (done rest : List (String × EInvoice × List Item))
    (fk : String) (fInv : EInvoice) (fItems : List Item) (e : String)
    (hdone : ∀ d ∈ done,
      (EInvoice.CalculateTotals { d.2.1 with ItemList := d.2.2 }).Validate
        = Except.ok ())
    (hfail : (EInvoice.CalculateTotals { fInv with ItemList := fItems }).Validate
        = Except.error e) :
    processEntries (done ++ (fk, fInv, fItems) :: rest)
      = (done.map fun d =>
          persistOf (EInvoice.CalculateTotals { d.2.1 with ItemList := d.2.2 }),
        some ("Invoice " ++ fk ++ ": " ++ e)) := by
  induction done with
  | nil =>
      simp only [List.nil_append, processEntries, List.map_nil]
      rw [hfail]
  | cons d done ih =>
      obtain ⟨no, inv, items⟩ := d
      have hd := hdone (no, inv, items) (List.mem_cons_self _ _)
      simp only [List.cons_append, processEntries, List.append_eq, hd,
        ih fun d2 hd2 => hdone d2 (List.mem_cons_of_mem _ hd2), List.map_cons]

/-- C3 witness for the amended statement, at the concrete mixed batch. -/
theorem claim_C3_witness :
    processEntries ([mixedHead] ++ (mixedSnd.1, mixedSnd.2.1, mixedSnd.2.2) :: [])
      = ([mixedHead].map fun d =>
          persistOf (EInvoice.CalculateTotals { d.2.1 with ItemList := d.2.2 }),
        some ("Invoice " ++ mixedSnd.1 ++ ": "
          ++ "unit price must be greater than zero")) :=
  claim_C3 [mixedHead] [] mixedSnd.1 mixedSnd.2.1 mixedSnd.2.2
    "unit price must be greater than zero"
    (by
      intro d hd
      rw [List.mem_singleton.mp hd]
      with_unfolding_all rfl)
    (by with_unfolding_all rfl)

/-- The data-row loop aborts at the first short row, reporting its position
shifted by the starting index. -/
theorem groupRowsAux_short (rs : List Row) :
    ∀ (i : Nat) (st : GroupState) (m : Nat),
    m < rs.length → (rs.getD m []).length < 12 →
    (∀ j, j < m → 12 ≤ (rs.getD j []).length) →
    groupRowsAux i st rs
      = Except.error ("Row " ++ toString (i + m + 1)
          ++ " does not have enough columns") := by
  induction rs with
  | nil =>
      intro i st m hm hshort hpre
      simp at hm
  | cons r rs ih =>
      intro i st m hm hshort hpre
      rcases m with _ | m
      · simp only [List.getD_cons_zero] at hshort
        simp only [groupRowsAux]
        rw [if_pos hshort, Nat.add_zero]
      · have hr : 12 ≤ r.length := by
          simpa using hpre 0 (Nat.succ_pos m)
        simp only [groupRowsAux]
        rw [if_neg (by omega)]
        have := ih (i + 1) (processRow st r) m
          (by simpa using hm)
          (by simpa using hshort)
          (fun j hj => by simpa using hpre (j + 1) (by omega))
        rw [this, show i + 1 + m + 1 = i + (m + 1) + 1 from by omega]

/-- C4: the first row is skipped unconditionally (replacing it changes
nothing); the first data row with fewer than 12 columns aborts the whole
batch with its 1-based sheet row index (the header is row 1, so the data row
at 0-based position `m` is row `m + 2`); and such a batch persists
nothing. -/
theorem claim_C4 (r0 : Row) (dataRows : List Row) (m : Nat)
    (hm : m < dataRows.length)
    (hshort : (dataRows.getD m []).length < 12)
    (hpre : ∀ j, j < m → 12 ≤ (dataRows.getD j []).length) :
    (∀ r0' : Row, groupRows (r0 :: dataRows) = groupRows (r0' :: dataRows))
    ∧ groupRows (r0 :: dataRows)
        = Except.error ("Row " ++ toString (m + 2)
            ++ " does not have enough columns")
    ∧ uploadCore (r0 :: dataRows)
        = ([], some ("Row " ++ toString (m + 2)
            ++ " does not have enough columns")) := by
  have hlen2 : ¬ (r0 :: dataRows).length < 2 := by
    simp only [List.length_cons]
    omega
  have herr : groupRows (r0 :: dataRows)
      = Except.error ("Row " ++ toString (m + 2)
          ++ " does not have enough columns") := by
    simp only [groupRows]
    rw [if_neg hlen2,
      groupRowsAux_short dataRows 1 initGroupState m hm hshort hpre,
      show 1 + m + 1 = m + 2 from by omega]
  refine ⟨?_, herr, ?_⟩
  · intro r0'
    simp only [groupRows, List.length_cons]
  · unfold uploadCore
    rw [herr]

/-- C4 witness: the spec's example — three valid data rows followed by one
5-column row — aborts the batch reporting sheet row 5 and persists zero
aggregates. -/
theorem claim_C4_witness :
    (∀ r0' : Row, groupRows (headerRow :: [exampleRow1, exampleRow2, badPriceRow, shortRow])
        = groupRows (r0' :: [exampleRow1, exampleRow2, badPriceRow, shortRow]))
    ∧ groupRows (headerRow :: [exampleRow1, exampleRow2, badPriceRow, shortRow])
        = Except.error ("Row " ++ toString (3 + 2)
            ++ " does not have enough columns")
    ∧ uploadCore (headerRow :: [exampleRow1, exampleRow2, badPriceRow, shortRow])
        = ([], some ("Row " ++ toString (3 + 2)
            ++ " does not have enough columns")) :=
  claim_C4 headerRow [exampleRow1, exampleRow2, badPriceRow, shortRow] 3
    (by decide) (by decide)
    (by
      intro j hj
      interval_cases j <;> decide)

/-- Every record persisted by the generate loop comes from a validated
invoice and is the persistence of its recomputed form. -/
theorem generateList_mem (invs : List EInvoice) (rec : PersistRecord)
    (h : rec ∈ (generateList invs).1) :
    ∃ inv ∈ invs, inv.Validate = Except.ok ()
      ∧ rec = persistOf inv.CalculateTotals := by
  induction invs with
  | nil => simp [generateList] at h
  | cons inv invs ih =>
      simp only [generateList] at h
      rcases hv : inv.Validate with e | u
      · rw [hv] at h
        simp at h
      · rw [hv] at h
        simp only [] at h
        rcases List.mem_cons.mp h with rfl | hmem
        · exact ⟨inv, List.mem_cons_self inv invs, hv, rfl⟩
        · obtain ⟨inv2, hm2, hv2, hr2⟩ := ih hmem
          exact ⟨inv2, List.mem_cons_of_mem inv hm2, hv2, hr2⟩

/-- Every record persisted by the upload loop comes from one of the grouped
entries, totalled and validated. -/
theorem processEntries_mem (entries : List (String × EInvoice × List Item))
    (rec : PersistRecord) (h : rec ∈ (processEntries entries).1) :
    ∃ en ∈ entries,
      (EInvoice.CalculateTotals { en.2.1 with ItemList := en.2.2 }).Validate
        = Except.ok ()
      ∧ rec = persistOf
          (EInvoice.CalculateTotals { en.2.1 with ItemList := en.2.2 }) := by
  induction entries with
  | nil => simp [processEntries] at h
  | cons en entries ih =>
      obtain ⟨no, inv, items⟩ := en
      simp only [processEntries] at h
      rcases hv : (EInvoice.CalculateTotals { inv with ItemList := items }).Validate
        with e | u
      · rw [hv] at h
        simp at h
      · rw [hv] at h
        simp only [] at h
        rcases List.mem_cons.mp h with rfl | hmem
        · exact ⟨(no, inv, items), List.mem_cons_self _ _, hv, rfl⟩
        · obtain ⟨en2, hm2, hv2, hr2⟩ := ih hmem
          exact ⟨en2, List.mem_cons_of_mem _ hm2, hv2, hr2⟩

/-- C9: every persisted record's QR payload — in both the generate handler
and the bulk import — is exactly the document number, a colon, and the total
invoice value of the recomputed aggregate formatted to two decimals; the
document number is the one submitted (unchanged by `CalculateTotals`).
Concretely, `"DOC1"` with total 35400 encodes as `"DOC1:35400.00"`, and the
formatting rounds exactly (0.125 prints as `"0.12"`). -/
theorem claim_C9 :
    (∀ (invs : List EInvoice) (rec : PersistRecord),
      rec ∈ (generateCore invs).1 →
      ∃ inv ∈ invs, inv.Validate = Except.ok ()
        ∧ rec.qrContent
            = (inv.CalculateTotals).DocDtls.No ++ ":"
              ++ format2f (inv.CalculateTotals).ValDtls.TotInvVal
        ∧ (inv.CalculateTotals).DocDtls.No = inv.DocDtls.No)
    ∧ (∀ (entries : List (String × EInvoice × List Item)) (rec : PersistRecord),
        rec ∈ (processEntries entries).1 →
        ∃ en ∈ entries,
          rec.qrContent
            = (EInvoice.CalculateTotals { en.2.1 with ItemList := en.2.2 }).DocDtls.No
              ++ ":" ++ format2f
                (EInvoice.CalculateTotals
                  { en.2.1 with ItemList := en.2.2 }).ValDtls.TotInvVal)
    ∧ qrContentOf "DOC1" 35400 = "DOC1:35400.00"
    ∧ format2f (1 / 8 : ℚ) = "0.12" := by
  refine ⟨?_, ?_, by with_unfolding_all rfl, by with_unfolding_all rfl⟩
  · intro invs rec h
    have hmem : rec ∈ (generateList invs).1 := by
      by_cases h0 : invs.length = 0
      · rw [show generateCore invs = ([], some "No invoice data provided")
            from by rw [generateCore, if_pos h0]] at h
        simp at h
      · rw [show generateCore invs = generateList invs
            from by rw [generateCore, if_neg h0]] at h
        exact h
    obtain ⟨inv, hm, hv, hr⟩ := generateList_mem invs rec hmem
    exact ⟨inv, hm, hv, by rw [hr]; rfl, rfl⟩
  · intro entries rec h
    obtain ⟨en, hm, hv, hr⟩ := processEntries_mem entries rec h
    exact ⟨en, hm, by rw [hr]; rfl⟩

/-- C9 witness: the example invoice, generated through the handler, is
persisted with QR payload built from its document number and recomputed
total. -/
theorem claim_C9_witness :
    ∃ inv ∈ [exampleInvoice], inv.Validate = Except.ok ()
      ∧ (persistOf exampleInvoice.CalculateTotals).qrContent
          = (inv.CalculateTotals).DocDtls.No ++ ":"
            ++ format2f (inv.CalculateTotals).ValDtls.TotInvVal
      ∧ (inv.CalculateTotals).DocDtls.No = inv.DocDtls.No := by
  refine claim_C9.1 [exampleInvoice] (persistOf exampleInvoice.CalculateTotals) ?_
  have hlist : (generateCore [exampleInvoice]).1
      = [persistOf exampleInvoice.CalculateTotals] := by
    with_unfolding_all rfl
  rw [hlist]
  exact List.mem_singleton.mpr rfl

/-- The data-row loop never fails on rows with at least 12 columns: its only
error exit is the column-count check. -/
theorem groupRowsAux_total (rows : List Row) :
    ∀ (i : Nat) (st : GroupState), (∀ r ∈ rows, 12 ≤ r.length) →
    ∃ st', groupRowsAux i st rows = Except.ok st' := by
  induction rows with
  | nil => exact fun i st _ => ⟨st, rfl⟩
  | cons r rows ih =>
      intro i st hall
      have hr : 12 ≤ r.length := hall r (List.mem_cons_self r rows)
      obtain ⟨st', hst'⟩ := ih (i + 1) (processRow st r)
        fun r2 h2 => hall r2 (List.mem_cons_of_mem r h2)
      refine ⟨st', ?_⟩
      simp only [groupRowsAux]
      rw [if_neg (by omega)]
      exact hst'

/-- When every quantity is non-negative and some unit price is non-positive,
the item loop reports the price rule. -/
theorem validateItems_error_price (l : List Item)
    (hq : ∀ it ∈ l, 0 ≤ it.Qty) (hp : ∃ it ∈ l, it.UnitPrice ≤ 0) :
    validateItems l = Except.error "unit price must be greater than zero" := by
  induction l with
  | nil => simp at hp
  | cons x xs ih =>
      have hxq : ¬ x.Qty < 0 :=
        not_lt.mpr (hq x (List.mem_cons_self x xs))
      simp only [validateItems, if_neg hxq]
      by_cases hxp : x.UnitPrice ≤ 0
      · rw [if_pos hxp]
      · rw [if_neg hxp]
        refine ih (fun it hit => hq it (List.mem_cons_of_mem x hit)) ?_
        obtain ⟨it, hit, hple⟩ := hp
        rcases List.mem_cons.mp hit with rfl | hmem
        · exact absurd hple hxp
        · exact ⟨it, hmem, hple⟩

/-- A cell ParseFloat rejects is in particular outside the finite-literal
grammar, so the evaluator yields nothing and the ignored-error value is 0. -/
theorem parseFloat?_eq_none_of_fails {s : String}
    (h : parseFloatFails s = true) : parseFloat? s = none := by
  have h2 : (parseFloat? s).isNone = true ∧ (!parseFloatSpecial s) = true := by
    have hh : ((parseFloat? s).isNone && !parseFloatSpecial s) = true := h
    exact (Bool.and_eq_true _ _).mp hh
  exact Option.isNone_iff_eq_none.mp h2.1

/-- C10 (implicit): a quantity, unit-price or tax-rate cell that ParseFloat
rejects — neither a finite numeric literal (decimal or hexadecimal, with
Go's underscore rules) nor an `Inf`/`Infinity`/`NaN` special — never
produces a parse error in a row with at least 12 columns: the row loop's
only error is the column count, and the rejected value silently becomes 0.
Such a unit-price cell therefore surfaces later as the business-rule
violation "unit price must be greater than zero" (when the seller GSTIN is
valid and quantities are non-negative), while such a quantity or tax-rate
cell is accepted with zero quantity or rate and zero computed amounts. -/
theorem claim_C10 (row : Row) (h12 : 12 ≤ row.length) :
    (∀ (rows : List Row) (i : Nat) (st : GroupState),
        (∀ r ∈ rows, 12 ≤ r.length) →
        ∃ st', groupRowsAux i st rows = Except.ok st')
    ∧ (parseFloatFails (row.getD 9 "") = true →
        ∀ sl : Nat, (mkItem sl row).UnitPrice = 0
        ∧ ∀ inv : EInvoice, gstinMatch inv.SellerDtls.Gstin = true →
            mkItem sl row ∈ inv.ItemList →
            (∀ it ∈ inv.ItemList, 0 ≤ it.Qty) →
            inv.Validate = Except.error "unit price must be greater than zero")
    ∧ (parseFloatFails (row.getD 7 "") = true →
        ∀ sl : Nat, (mkItem sl row).Qty = 0 ∧ (mkItem sl row).TotAmt = 0
        ∧ (mkItem sl row).AssAmt = 0 ∧ (mkItem sl row).IgstAmt = 0
        ∧ (mkItem sl row).TotItemVal = 0)
    ∧ (parseFloatFails (row.getD 10 "") = true →
        ∀ sl : Nat, (mkItem sl row).GstRt = 0 ∧ (mkItem sl row).IgstAmt = 0
        ∧ (mkItem sl row).TotItemVal = (mkItem sl row).AssAmt) := by
  refine ⟨groupRowsAux_total, ?_, ?_, ?_⟩
  · intro hpf sl
    have hp := parseFloat?_eq_none_of_fails hpf
    have hprice : (mkItem sl row).UnitPrice = 0 := by
      show (parseFloat? (row.getD 9 "")).getD 0 = 0
      rw [hp]
      rfl
    refine ⟨hprice, ?_⟩
    intro inv hg hmem hq
    have hval : inv.Validate = validateItems inv.ItemList := by
      simp [EInvoice.Validate, hg]
    rw [hval]
    exact validateItems_error_price inv.ItemList hq
      ⟨mkItem sl row, hmem, by rw [hprice]⟩
  · intro hpf sl
    have hp := parseFloat?_eq_none_of_fails hpf
    have hqty : (mkItem sl row).Qty = 0 := by
      show (parseFloat? (row.getD 7 "")).getD 0 = 0
      rw [hp]
      rfl
    refine ⟨hqty, ?_, ?_, ?_, ?_⟩
    · show (parseFloat? (row.getD 7 "")).getD 0
          * (parseFloat? (row.getD 9 "")).getD 0 = 0
      rw [hp]
      simp
    · show (parseFloat? (row.getD 7 "")).getD 0
          * (parseFloat? (row.getD 9 "")).getD 0 = 0
      rw [hp]
      simp
    · show (parseFloat? (row.getD 7 "")).getD 0
          * (parseFloat? (row.getD 9 "")).getD 0
          * (parseFloat? (row.getD 10 "")).getD 0 / 100 = 0
      rw [hp]
      simp
    · show (parseFloat? (row.getD 7 "")).getD 0
          * (parseFloat? (row.getD 9 "")).getD 0
          + (parseFloat? (row.getD 7 "")).getD 0
            * (parseFloat? (row.getD 9 "")).getD 0
            * (parseFloat? (row.getD 10 "")).getD 0 / 100 = 0
      rw [hp]
      simp
  · intro hpf sl
    have hp := parseFloat?_eq_none_of_fails hpf
    have hrate : (mkItem sl row).GstRt = 0 := by
      show (parseFloat? (row.getD 10 "")).getD 0 = 0
      rw [hp]
      rfl
    refine ⟨hrate, ?_, ?_⟩
    · show (parseFloat? (row.getD 7 "")).getD 0
          * (parseFloat? (row.getD 9 "")).getD 0
          * (parseFloat? (row.getD 10 "")).getD 0 / 100 = 0
      rw [hp]
      simp
    · show (parseFloat? (row.getD 7 "")).getD 0
          * (parseFloat? (row.getD 9 "")).getD 0
          + (parseFloat? (row.getD 7 "")).getD 0
            * (parseFloat? (row.getD 9 "")).getD 0
            * (parseFloat? (row.getD 10 "")).getD 0 / 100
        = (parseFloat? (row.getD 7 "")).getD 0
          * (parseFloat? (row.getD 9 "")).getD 0
      rw [hp]
      simp

/-- C10 witness: the all-garbage row (quantity `"xyz"`, price `"abc"`, rate
`"n/a"`) yields an item with all-zero inputs and computed amounts. -/
theorem claim_C10_witness :
    (mkItem 1 garbageRow).UnitPrice = 0 ∧ (mkItem 1 garbageRow).Qty = 0
    ∧ (mkItem 1 garbageRow).TotAmt = 0
    ∧ (mkItem 1 garbageRow).GstRt = 0 ∧ (mkItem 1 garbageRow).IgstAmt = 0 := by
  have h := claim_C10 garbageRow (by decide)
  have hp := h.2.1 (by with_unfolding_all rfl) 1
  have hq := h.2.2.1 (by with_unfolding_all rfl) 1
  have hr := h.2.2.2 (by with_unfolding_all rfl) 1
  exact ⟨hp.1, hq.1, hq.2.1, hr.1, hr.2.1⟩

end EInvoiceApp
